import Mathlib

/-!
Verification of the innsight-flask recommendation pipeline core.

This file gives a shallow embedding, in Lean 4, of the parts of the source
that the specification claims talk about:

* `Innsight.QueryParse`  — duration extraction from `src/innsight_flask/parser.py`
  (`DaysExtractor`: `_extract_all_days`, `_is_illogical_combination`,
  `_resolve_conflicts`, `_validate_range`).
* `Innsight.Rating`      — the weighted scoring engine from
  `src/innsight_flask/rating_service.py`.
* `Innsight.Ors`         — the retry decorator and the stale-fallback cache from
  `src/innsight_flask/ors_client.py`.
* `Innsight.Tier`        — the tier-assignment algorithm from
  `src/innsight_flask/tier.py` and `services/tier_service.py`.
* `Innsight.Pipeline`    — the pipeline orchestration `Recommender.run` and its
  value-level result cache from `src/innsight_flask/pipeline.py`.
* `Innsight.CacheHeap`   — a heap model (explicit object identity) of
  `Recommender._save_to_cache` / `Recommender._get_from_cache`, used to reason
  about aliasing of the cached result.

Numbers are embedded as `ℚ` (Python ints/floats that occur here are exact small
decimals), fallible code returns `Except`, and external collaborators
(the jieba tokenizer, shapely geometry, the HTTP transports) are parameters of
the definitions that call them.
-/


namespace Innsight

/-- Decidable equality on `Except`, so concrete evaluations can be settled by
`decide`. -/
instance {ε α : Type _} [DecidableEq ε] [DecidableEq α] : DecidableEq (Except ε α) :=
  fun a b =>
    match a, b with
    | .ok x, .ok y =>
      if h : x = y then .isTrue (by rw [h]) else .isFalse (by intro hh; cases hh; exact h rfl)
    | .error x, .error y =>
      if h : x = y then .isTrue (by rw [h]) else .isFalse (by intro hh; cases hh; exact h rfl)
    | .ok _, .error _ => .isFalse (by intro hh; cases hh)
    | .error _, .ok _ => .isFalse (by intro hh; cases hh)

end Innsight

namespace Innsight.QueryParse

/-- Error taxonomy of the days extractor (`exceptions.py`): `DaysOutOfRangeError`
and `ParseConflictError`, both subclasses of `ParseError`. -/
inductive ParseErr where
  | daysOutOfRange (msg : String)
  | parseConflict (msg : String)
  deriving DecidableEq, Repr

/-- Maximum allowed days (`DaysExtractor.MAX_DAYS`). -/
def MAX_DAYS : ℚ := 14

/-- Embeds `DaysExtractor._contains_half_day`: true when any extracted number is
`0.5` (the value the numeral table maps `半` to). -/
def contains_half_day (numbers : List ℚ) : Bool :=
  numbers.any (fun n => n == (1 / 2 : ℚ))

/-- Embeds `DaysExtractor._is_illogical_combination`: with exactly one day value
and one night value, the pair is illogical when the day value is less than the
night value by at most 1. -/
def is_illogical_combination (day_counts night_counts : List ℚ) : Bool :=
  if day_counts.isEmpty || night_counts.isEmpty then
    false
  else
    match day_counts, night_counts with
    | [day_val], [night_val] => decide (day_val < night_val ∧ night_val - day_val ≤ 1)
    | _, _ => false

/-- Embeds `DaysExtractor._extract_all_days`, given the results of the two
regex scans (`_extract_pattern_numbers` over the day units `天/日` and the night
units `晚/夜`; both only yield positive numbers). -/
def extract_all_days (day_counts night_counts : List ℚ) : List ℚ :=
  if contains_half_day (day_counts ++ night_counts) then
    []
  else if is_illogical_combination day_counts night_counts then
    []
  else
    day_counts ++ night_counts

/-- Embeds `DaysExtractor._resolve_conflicts`.  The source takes
`sorted(unique_days)[1] - sorted(unique_days)[0]` on the two-element set, which
is rendered as `hi - lo` with `hi`/`lo` the max/min of the set. -/
def resolve_conflicts (found_days : List ℚ) : Except ParseErr ℚ :=
  let unique := found_days.dedup
  if unique.length == 1 then
    .ok (found_days.headD 0)
  else if unique.length == 2 then
    let lo := unique.foldr min (unique.headD 0)
    let hi := unique.foldr max (unique.headD 0)
    if hi - lo == 1 then
      .ok (found_days.foldr max (found_days.headD 0))
    else
      .error (.parseConflict "Conflicting day specifications found")
  else
    .error (.parseConflict "Conflicting day specifications found")

/-- Embeds `DaysExtractor._validate_range`. -/
def validate_range (days : ℚ) : Except ParseErr Unit :=
  if days > MAX_DAYS then
    .error (.daysOutOfRange "Days exceeds maximum of 14")
  else
    .ok ()

/-- Embeds `DaysExtractor.extract` after the text scans: `half_day` is the
result of `_is_half_day(text)`, and `day_counts` / `night_counts` are the
values the two regex scans extracted from the text. -/
def extract (half_day : Bool) (day_counts night_counts : List ℚ) :
    Except ParseErr (Option ℚ) :=
  if half_day then
    .ok none
  else
    let found_days := extract_all_days day_counts night_counts
    if found_days.isEmpty then
      .ok none
    else do
      let resolved ← resolve_conflicts found_days
      validate_range resolved
      .ok (some resolved)

end Innsight.QueryParse

namespace Innsight.Rating

/-- Error taxonomy of `score_accommodation` (`rating_service.py` raises the
builtin `ValueError`, `ZeroDivisionError` and `TypeError`). -/
inductive ScoreErr where
  | valueError (msg : String)
  | zeroDivision (msg : String)
  | typeError (msg : String)
  deriving DecidableEq, Repr

/-- Default rating weights (`AppConfig.rating_weights` in `config.py`; both the
injected config and the `_get_default_weights` fallback construct the same
dataclass defaults). -/
def default_weights : List (String × ℚ) :=
  [("tier", 4), ("rating", 2), ("parking", 1), ("wheelchair", 1), ("kids", 1), ("pet", 1)]

/-- Embeds `_merge_weights`: defaults overridden key-by-key by provided
weights; keys absent from the defaults are ignored. -/
def merge_weights (provided : Option (List (String × ℚ)))
    (defaults : List (String × ℚ)) : List (String × ℚ) :=
  match provided with
  | none => defaults
  | some p =>
    defaults.map fun kv =>
      match p.lookup kv.1 with
      | some v => (kv.1, v)
      | none => kv

/-- Embeds `_validate_weights`: a negative weight raises `ValueError`, a zero
total raises `ZeroDivisionError`. -/
def validate_weights (weights : List (String × ℚ)) : Except ScoreErr Unit :=
  if weights.any (fun kv => decide (kv.2 < 0)) then
    .error (.valueError "weights must be >= 0")
  else if (weights.map (fun kv => kv.2)).sum = 0 then
    .error (.zeroDivision "All weights cannot be zero")
  else
    .ok ()

/-- Rating cell of a row: a number or a string still to be parsed
(`_convert_rating` accepts both). -/
inductive RatingVal where
  | num (q : ℚ)
  | str (s : String)
  deriving DecidableEq

/-- Row data consumed by `_extract_row_data`: tier, rating and the amenity tag
mapping.  `none` models a missing/NaN cell. -/
structure Row where
  tier : Option ℚ
  rating : Option RatingVal
  tags : List (String × String)
  deriving DecidableEq

/-- Embeds `_validate_tier`: a present tier outside `0..max_tier` raises
`ValueError`. -/
def validate_tier (tier : Option ℚ) (max_tier : ℚ) : Except ScoreErr Unit :=
  match tier with
  | some t =>
    if t < 0 ∨ t > max_tier then .error (.valueError "tier must be 0-3") else .ok ()
  | none => .ok ()

/-- Embeds `_convert_rating`; `parseFloat` stands for the Python builtin
`float` applied to a string (external to the repository). -/
def convert_rating (parseFloat : String → Option ℚ) (rating : Option RatingVal) :
    Except ScoreErr (Option ℚ) :=
  match rating with
  | none => .ok none
  | some (.num q) => .ok (some q)
  | some (.str s) =>
    match parseFloat s with
    | some q => .ok (some q)
    | none => .error (.typeError "Cannot convert rating to float")

/-- Configuration constants used by `_calculate_component_scores`
(`default_missing_score`, `max_tier_value`, `max_rating_value`, `max_score`
from `AppConfig`). -/
def default_missing_score : ℚ := 50

/-- Maximum tier value (`AppConfig.max_tier_value`). -/
def max_tier_value : ℚ := 3

/-- Maximum rating value (`AppConfig.max_rating_value`). -/
def max_rating_value : ℚ := 5

/-- Maximum score (`AppConfig.max_score`). -/
def max_score : ℚ := 100

/-- Embeds the amenity-tag branch of `_calculate_component_scores`:
yes → 100, no → 0, missing → 50, any other value → 50 (with a warning in the
source). -/
def tag_score (tags : List (String × String)) (key : String) : ℚ :=
  match tags.lookup key with
  | some "yes" => max_score
  | some "no" => 0
  | none => default_missing_score
  | some _ => default_missing_score

/-- Embeds `_calculate_component_scores` (insertion order of the Python dict:
tier, rating, then the four tag keys). -/
def calculate_component_scores (tier : Option ℚ) (rating : Option ℚ)
    (tags : List (String × String)) : List (String × ℚ) :=
  [("tier", match tier with
            | some t => t / max_tier_value * max_score
            | none => default_missing_score),
   ("rating", match rating with
              | some r => r / max_rating_value * max_score
              | none => default_missing_score),
   ("parking", tag_score tags "parking"),
   ("wheelchair", tag_score tags "wheelchair"),
   ("kids", tag_score tags "kids"),
   ("pet", tag_score tags "pet")]

/-- Embeds `_calculate_weighted_score`: weighted average over the component
scores, with the (unreachable through `score_accommodation`) zero-total guard
returning 0. -/
def calculate_weighted_score (scores weights : List (String × ℚ)) : ℚ :=
  let total_weighted_score :=
    (scores.map (fun kv => kv.2 * ((weights.lookup kv.1).getD 0))).sum
  let total_weight := (scores.map (fun kv => (weights.lookup kv.1).getD 0)).sum
  if total_weight > 0 then total_weighted_score / total_weight else 0

/-- Embeds `score_accommodation` with the default configuration (the pipeline
constructs `RatingService` from `AppConfig` defaults). -/
def score_accommodation (parseFloat : String → Option ℚ) (row : Row)
    (weights : Option (List (String × ℚ))) : Except ScoreErr ℚ := do
  let w := merge_weights weights default_weights
  validate_weights w
  validate_tier row.tier max_tier_value
  let rating ← convert_rating parseFloat row.rating
  let scores := calculate_component_scores row.tier rating row.tags
  .ok (calculate_weighted_score scores w)

end Innsight.Rating

namespace Innsight.Ors

/-- Failure modes of the raw transport `_fetch_isochrones_from_api`
(`ors_client.py`): the four network-class exceptions of the retry/except
tuples (`Timeout`, `ConnectionError`, `HTTPError`, `JSONDecodeError`) plus the
repository's own `APIError` raised on an error payload in a 200 response. -/
inductive FetchErr where
  | timeout (msg : String)
  | connError (msg : String)
  | httpError (status : ℕ) (text : String)
  | jsonDecodeError (msg : String)
  | apiError (msg : String)
  deriving DecidableEq, Repr

/-- Membership of the `except (Timeout, ConnectionError, HTTPError,
JSONDecodeError)` tuples used by both decorators. -/
def is_network_exc : FetchErr → Bool
  | .timeout _ => true
  | .connError _ => true
  | .httpError _ _ => true
  | .jsonDecodeError _ => true
  | .apiError _ => false

/-- Retryable HTTP statuses (`status == 429 or 500 <= status < 600`). -/
def retryable_status (s : ℕ) : Bool :=
  s == 429 || (500 ≤ s && s < 600)

/-- Transformation applied to the error re-raised on the final attempt:
retryable `HTTPError`s get the annotated upstream-temporary-failure message,
`JSONDecodeError` becomes a `ConnectionError`, everything else is re-raised
as is. -/
def transform_final : FetchErr → FetchErr
  | .httpError s text => .httpError s ("Upstream temporary failure: " ++ text)
  | .jsonDecodeError m => .connError ("Invalid response format: " ++ m)
  | e => e

/-- Observable outcome of the retry wrapper: the returned/raised value, how
many times the wrapped transport was invoked, and the list of sleep durations
(in order).  `result = ok none` is the `return None` after a zero-iteration
loop (`max_attempts = 0`). -/
structure RetryOutcome (α : Type) where
  result : Except FetchErr (Option α)
  calls : ℕ
  sleeps : List ℚ
  deriving DecidableEq

/-- Check, inside the except clause, for an `HTTPError` whose status is not
retryable (`if not (status == 429 or 500 <= status < 600): raise`). -/
def http_not_retryable : FetchErr → Bool
  | .httpError s _ => !retryable_status s
  | _ => false

/-- Embeds the `for attempt in range(max_attempts)` loop body of
`retry_on_network_error.decorator.wrapper`, from a given attempt index with a
given current delay and the number of remaining iterations. -/
def retry_from (f : ℕ → Except FetchErr α) (max_attempts : ℕ) (backoff : ℚ) :
    ℕ → ℚ → ℕ → RetryOutcome α
  | _, _, 0 => ⟨.ok none, 0, []⟩
  | attempt, current_delay, rem + 1 =>
    match f attempt with
    | .ok v => ⟨.ok (some v), 1, []⟩
    | .error e =>
      if is_network_exc e = false then
        ⟨.error e, 1, []⟩
      else if http_not_retryable e then
        ⟨.error e, 1, []⟩
      else if attempt == max_attempts - 1 then
        ⟨.error (transform_final e), 1, []⟩
      else
        let rest := retry_from f max_attempts backoff (attempt + 1) (current_delay * backoff) rem
        ⟨rest.result, rest.calls + 1, current_delay :: rest.sleeps⟩

/-- Embeds `retry_on_network_error(max_attempts, delay, backoff)` applied to a
transport `f` (indexed by attempt number so each invocation can behave
differently). -/
def retry_on_network_error (max_attempts : ℕ) (delay backoff : ℚ)
    (f : ℕ → Except FetchErr α) : RetryOutcome α :=
  retry_from f max_attempts backoff 0 delay max_attempts

/-- Transient errors in the sense of the spec: caught by the retry tuple and,
for HTTP errors, carrying a retryable status. -/
def is_transient (e : FetchErr) : Bool :=
  is_network_exc e && (match e with | .httpError s _ => retryable_status s | _ => true)

/-- Sleep schedule produced by multiplying the delay by the backoff factor
after each attempt. -/
def geometric_delays (delay backoff : ℚ) : ℕ → List ℚ
  | 0 => []
  | n + 1 => delay :: geometric_delays (delay * backoff) backoff n

/-- Result type of the fallback-cache wrapper: either the wrapped transport's
error classes propagate, or the wrapper raises its own `IsochroneError` when a
network-class failure meets an empty cache slot. -/
inductive CallErr where
  | fetch (e : FetchErr)
  | isochroneError (msg : String)
  deriving DecidableEq, Repr

/-- Cache state of `_fallback_cache`: an insertion-ordered association list
key → (result, timestamp), mirroring a Python dict. -/
abbrev FbCache (κ α : Type) := List (κ × α × ℚ)

/-- Dict update `_fallback_cache[key] = (result, now)`: replace in place when
the key exists, append otherwise. -/
def fb_set [BEq κ] (cache : FbCache κ α) (k : κ) (v : α × ℚ) : FbCache κ α :=
  if (List.lookup k cache).isSome then
    cache.map fun e => if e.1 == k then (k, v) else e
  else
    cache ++ [(k, v)]

/-- Purge of expired entries (`current_time - timestamp > ttl_hours * 3600`). -/
def purge_expired (cache : FbCache κ α) (now ttl_hours : ℚ) : FbCache κ α :=
  cache.filter fun e => !decide (now - e.2.2 > ttl_hours * 3600)

/-- Removal of the single globally-oldest entry (`min` over the dict by
timestamp; ties resolve to the first entry in insertion order, like Python's
`min`). -/
def evict_oldest [BEq κ] (cache : FbCache κ α) : FbCache κ α :=
  match cache with
  | [] => []
  | e :: rest =>
    let tmin := (rest.map fun x => x.2.2).foldl min e.2.2
    List.eraseP (fun x => x.2.2 == tmin) (e :: rest)

/-- Embeds the body of `fallback_cache.decorator.wrapper` after a cache miss
or an expired hit: call the (already retry-wrapped) transport, update and
bound the cache on success, fall back to any cached value on a network-class
failure, raise `IsochroneError` when there is none, and let any other failure
propagate. -/
def fallback_transport [BEq κ] (maxsize : ℕ) (ttl_hours : ℚ) (k : κ) (now : ℚ)
    (f : Unit → Except FetchErr α) (cache : FbCache κ α) :
    Except CallErr α × FbCache κ α × Bool :=
  match f () with
  | .ok v =>
    let cache1 := fb_set cache k (v, now)
    let cache2 :=
      if cache1.length > maxsize then
        let c := purge_expired cache1 now ttl_hours
        if c.length > maxsize then evict_oldest c else c
      else cache1
    (.ok v, cache2, true)
  | .error e =>
    if is_network_exc e then
      match List.lookup k cache with
      | some (v, _) => (.ok v, cache, true)
      | none =>
        (.error (.isochroneError "Isochrone request failed and no cache available"),
         cache, true)
    else
      (.error (.fetch e), cache, true)

/-- Embeds `fallback_cache(maxsize, ttl_hours)` applied to a transport `f`:
the returned triple is (outcome, cache state after the call, whether the
transport was invoked). -/
def fallback_call [BEq κ] (maxsize : ℕ) (ttl_hours : ℚ) (k : κ) (now : ℚ)
    (f : Unit → Except FetchErr α) (cache : FbCache κ α) :
    Except CallErr α × FbCache κ α × Bool :=
  match List.lookup k cache with
  | some (v, t) =>
    if (now - t) / 3600 ≤ ttl_hours then (.ok v, cache, false)
    else fallback_transport maxsize ttl_hours k now f cache
  | none => fallback_transport maxsize ttl_hours k now f cache

end Innsight.Ors

namespace Innsight.Tier

/-- Cell values of a pandas DataFrame as used by `tier.py`: numbers, strings,
shapely points (the geometry column) and NaN/None. -/
inductive PdVal where
  | num (q : ℚ)
  | strv (s : String)
  | ptv (lon lat : ℚ)
  | nan
  deriving DecidableEq, Repr

/-- Truth of `pd.isna` on a cell. -/
def PdVal.isna : PdVal → Bool
  | .nan => true
  | _ => false

/-- Numeric reading of a cell (callers only use it on validated numeric
columns). -/
def PdVal.toRat : PdVal → ℚ
  | .num q => q
  | _ => 0

/-- A pandas DataFrame: a column list and rows aligned with it. -/
structure DFrame where
  cols : List String
  rows : List (List PdVal)
  deriving DecidableEq

/-- Well-formedness: every row has one cell per column. -/
def DFrame.wf (df : DFrame) : Prop :=
  ∀ r ∈ df.rows, r.length = df.cols.length

/-- Index of the first occurrence of a label in a column list. -/
def idx_of : List String → String → Option ℕ
  | [], _ => none
  | x :: rest, c => if x == c then some 0 else (idx_of rest c).map (· + 1)

/-- Position of a column label (`c in df.columns` and indexing). -/
def col_idx (df : DFrame) (c : String) : Option ℕ :=
  idx_of df.cols c

/-- Column read `df[c]` as a list of cells. -/
def get_col (df : DFrame) (c : String) : List PdVal :=
  match col_idx df c with
  | some i => df.rows.map fun r => r.getD i .nan
  | none => []

/-- Column write `df[c] = vals`: overwrite in place when the column exists,
append a new column otherwise (pandas semantics). -/
def set_col (df : DFrame) (c : String) (vals : List PdVal) : DFrame :=
  match col_idx df c with
  | some i => ⟨df.cols, (df.rows.zip vals).map fun rv => rv.1.set i rv.2⟩
  | none => ⟨df.cols ++ [c], (df.rows.zip vals).map fun rv => rv.1 ++ [rv.2]⟩

/-- Error raised by `tier.py` (`TierError`). -/
inductive TierErr where
  | tierError (msg : String)
  deriving DecidableEq, Repr

/-- One isochrone group as accepted by `assign_tier`: a bare polygon or a
list of polygons.  The polygon type `P` is abstract; shapely geometry enters
through the `within`/`buffer` parameters. -/
inductive PolyGroup (P : Type) where
  | single (p : P)
  | group (ps : List P)

/-- Default buffer distance (`DEFAULT_BUFFER = 1e-5`). -/
def DEFAULT_BUFFER : ℚ := 1 / 100000

/-- Embeds the polygon-processing loop of `assign_tier` (tier.py:51-81): a
list input contributes only its *first* element, an empty list is a
`TierError`, and each polygon is buffered when the buffer distance is
positive.  The `isinstance` checks on the polygon type hold by typing here. -/
def process_polygons {P : Type} (buffer_fn : P → ℚ → P) (buf : ℚ) :
    List (PolyGroup P) → Except TierErr (List P)
  | [] => .ok []
  | g :: rest =>
    match (match g with
           | .single p => .ok p
           | .group [] => .error (.tierError "polygon format error: list cannot be empty")
           | .group (p :: _) => .ok p : Except TierErr P) with
    | .error e => .error e
    | .ok p =>
      let p := if buf > 0 then buffer_fn p buf else p
      match process_polygons buffer_fn buf rest with
      | .error e => .error e
      | .ok ps => .ok (p :: ps)

/-- Rounding of a coordinate to 8 decimal places (`df[..].round(8)` followed
by the string round trip; the tie-breaking convention of float rounding is
immaterial to the claims proved here). -/
def round8 (q : ℚ) : ℚ :=
  ((round (q * 100000000) : ℤ) : ℚ) / 100000000

/-- Embeds the containment loop over the processed polygons
(`for i, polygon in enumerate(processed_polygons)` with
`tier_value = len(processed_polygons) - i` and a running maximum). -/
def tier_scan {P : Type} (within : ℚ → ℚ → P → Bool) (lon lat : ℚ) (n : ℕ) :
    List P → ℕ → ℕ → ℕ
  | [], _, highest => highest
  | p :: rest, i, highest =>
    tier_scan within lon lat n rest (i + 1)
      (if within lon lat p then max highest (n - i) else highest)

/-- Tier computed for one (already rounded) coordinate. -/
def tier_for {P : Type} (within : ℚ → ℚ → P → Bool) (processed : List P)
    (lon lat : ℚ) : ℕ :=
  tier_scan within lon lat processed.length processed 0 0

/-- Embeds `assign_tier(df, polygons, buffer)` from `tier.py`, parameterized
by the shapely primitives `within` (point containment, taking lon/lat) and
`buffer_fn` (outward buffering).  The unique-coordinate deduplication keeps a
different representative than `drop_duplicates` (last instead of first), which
is immaterial because the computed tier is a function of the coordinate. -/
def assign_tier {P : Type} (within : ℚ → ℚ → P → Bool) (buffer_fn : P → ℚ → P)
    (df : DFrame) (polygons : List (PolyGroup P)) (buf : ℚ) :
    Except TierErr DFrame :=
  if (col_idx df "lat").isNone || (col_idx df "lon").isNone then
    .error (.tierError "DataFrame must contain lat and lon columns")
  else
    let lats := get_col df "lat"
    let lons := get_col df "lon"
    if lats.any PdVal.isna || lons.any PdVal.isna then
      .error (.tierError "Missing latitude or longitude")
    else
      match process_polygons buffer_fn buf polygons with
      | .error e => .error e
      | .ok processed =>
        let geometry := (lats.zip lons).map fun ll => PdVal.ptv ll.2.toRat ll.1.toRat
        let gdf := set_col df "geometry" geometry
        let gdf := set_col gdf "tier" (List.replicate gdf.rows.length (PdVal.num 0))
        if df.rows.length == 0 then
          .ok gdf
        else
          let coord_keys := (lats.zip lons).map fun ll =>
            (round8 ll.1.toRat, round8 ll.2.toRat)
          let unique := coord_keys.dedup
          let coord_to_tier := unique.map fun c =>
            (c, tier_for within processed c.2 c.1)
          let tiers := coord_keys.map fun c =>
            match coord_to_tier.lookup c with
            | some t => PdVal.num t
            | none => PdVal.nan
          .ok (set_col gdf "tier" tiers)

/-- Truthiness of one isochrone group in `all(isochrones_list)`: a nonempty
polygon list is truthy; a bare shapely polygon is truthy (empty geometries are
out of scope). -/
def group_truthy {P : Type} : PolyGroup P → Bool
  | .single _ => true
  | .group ps => !ps.isEmpty

/-- Embeds `TierService.assign_tiers` (`services/tier_service.py`): a missing
(`None`), empty, or partly-falsy isochrone list short-circuits to tier 0 for
every candidate; otherwise `assign_tier` runs with the default buffer. -/
def assign_tiers {P : Type} (within : ℚ → ℚ → P → Bool) (buffer_fn : P → ℚ → P)
    (df : DFrame) (isochrones_list : Option (List (PolyGroup P))) :
    Except TierErr DFrame :=
  match isochrones_list with
  | some l =>
    if !l.isEmpty && l.all group_truthy then
      assign_tier within buffer_fn df l DEFAULT_BUFFER
    else
      .ok (set_col df "tier" (List.replicate df.rows.length (PdVal.num 0)))
  | none => .ok (set_col df "tier" (List.replicate df.rows.length (PdVal.num 0)))

/-- Recursion for the specification-side tier value: walking the groups with
their indices, take `N - i` for every group that contains the point. -/
def spec_tier_go {P : Type} (contains : P → Bool) : List P → ℕ → ℕ → ℕ
  | [], _, _ => 0
  | g :: rest, N, i =>
    if contains g then max (N - i) (spec_tier_go contains rest N (i + 1))
    else spec_tier_go contains rest N (i + 1)

/-- Specification-side definition (formalizing the spec's words, to be
compared with the implementation): with N groups ordered innermost first, the
tier of a point is the maximum of `N - i` over all group indices `i` whose
polygon contains it, and 0 when no polygon contains it. -/
def spec_tier {P : Type} (contains : P → Bool) (groups : List P) : ℕ :=
  spec_tier_go contains groups groups.length 0

/-- Restriction of a polygon group to its first polygon, for stating the
heads-only behavior of `process_polygons`. -/
def head_group {P : Type} : PolyGroup P → PolyGroup P
  | .single p => .single p
  | .group [] => .group []
  | .group (p :: _) => .single p

end Innsight.Tier

namespace Innsight.Pipeline

/-- Python exceptions observable at the pipeline layer (`exceptions.py` plus
the generic remainder).  `otherError` stands for any exception outside the
repository's taxonomy. -/
inductive PyExc where
  | parseError (msg : String)
  | daysOutOfRange (msg : String)
  | parseConflict (msg : String)
  | networkError (msg : String)
  | apiError (msg : String)
  | geocodeError (msg : String)
  | isochroneError (msg : String)
  | serviceUnavailable (msg : String)
  | otherError (msg : String)
  deriving DecidableEq, Repr

/-- Membership of the `ParseError` class (including its two subclasses). -/
def PyExc.is_parse_error : PyExc → Bool
  | .parseError _ => true
  | .daysOutOfRange _ => true
  | .parseConflict _ => true
  | _ => false

/-- Membership of the tuple `(NetworkError, APIError, GeocodeError,
IsochroneError)` caught at pipeline.py:233. -/
def PyExc.is_external_dep : PyExc → Bool
  | .networkError _ => true
  | .apiError _ => true
  | .geocodeError _ => true
  | .isochroneError _ => true
  | _ => false

/-- Message carried by an exception (`str(e)`). -/
def PyExc.msg : PyExc → String
  | .parseError m => m
  | .daysOutOfRange m => m
  | .parseConflict m => m
  | .networkError m => m
  | .apiError m => m
  | .geocodeError m => m
  | .isochroneError m => m
  | .serviceUnavailable m => m
  | .otherError m => m

/-- Tier statistics block of the result. -/
structure Stats where
  tier_0 : ℕ
  tier_1 : ℕ
  tier_2 : ℕ
  tier_3 : ℕ
  deriving DecidableEq, Repr

/-- Geocoding details returned by `GeocodeService.geocode_location_detailed`. -/
structure PoiDetails where
  lat : Option ℚ
  lon : Option ℚ
  display_name : Option String
  ptype : Option String
  addr : Option String
  deriving DecidableEq

/-- The `main_poi` block built by `_build_main_poi_data`. -/
structure MainPoi where
  name : String
  location : Option String
  lat : Option ℚ
  lon : Option ℚ
  display_name : Option String
  ptype : Option String
  addr : Option String
  deriving DecidableEq

/-- One row of the GeoDataFrame returned by the recommender core, with the
fields `_serialize_gdf` reads (`none` models a missing/NaN cell). -/
structure GdfRow where
  name : Option String
  score : Option ℚ
  tier : Option ℚ
  lat : Option ℚ
  lon : Option ℚ
  osmid : Option String
  osmtype : Option String
  tourism : Option String
  rating : Option ℚ
  tags : List (String × String)
  deriving DecidableEq

/-- One serialized entry of the `top` list. -/
structure SerRow where
  name : String
  score : ℚ
  tier : ℤ
  lat : Option ℚ
  lon : Option ℚ
  osmid : Option String
  osmtype : Option String
  tourism : Option String
  rating : Option ℚ
  amenities : List (String × String)
  deriving DecidableEq

/-- GeoJSON geometries produced by `_convert_isochrones_to_geojson`. -/
inductive GeoJson where
  | polygon (coords : List (List (ℚ × ℚ)))
  | multiPolygon (coords : List (List (List (ℚ × ℚ))))
  deriving DecidableEq

/-- The `intervals` block of the result. -/
structure Intervals where
  values : List ℕ
  unit : String
  profile : String
  deriving DecidableEq

/-- The pipeline result dictionary. -/
structure RunResult where
  stats : Stats
  top : List SerRow
  main_poi : MainPoi
  isochrone_geometry : List GeoJson
  intervals : Intervals
  deriving DecidableEq

/-- Caller-supplied score weights. -/
abbrev Weights := List (String × ℚ)

/-- Output of `parse_query`. -/
structure ParsedQuery where
  days : Option ℚ
  filters : List String
  poi : String
  place : String
  deriving DecidableEq

/-- Cache key: the source hashes the canonical JSON of this normalized tuple
(md5); the model uses the normalized tuple itself as the key. -/
structure CKey where
  poi : String
  place : String
  filters : List String
  weights : Option Weights
  profile : String
  deriving DecidableEq

/-- Mutable state of the pipeline `Recommender` (cache and counters). -/
structure PState where
  cache : List (CKey × RunResult × ℚ)
  last_cleanup_time : ℚ
  cache_hits : ℕ
  cache_misses : ℕ
  parsing_failures : ℕ
  deriving DecidableEq

/-- Cache configuration (`recommender_cache_ttl_seconds`,
`recommender_cache_maxsize`, `recommender_cache_cleanup_interval`). -/
structure CacheCfg where
  ttl : ℚ
  maxsize : ℕ
  cleanup_interval : ℚ
  deriving DecidableEq

/-- One outbound transport invocation (for stating which transports a run
touches). -/
inductive TCall where
  | geocode (term : String)
  | searchCoords (lat lon : ℚ) (filters : List String) (top_n : ℕ)
  | searchQuery (q : String) (filters : List String) (top_n : ℕ)
  | isochrones (lon lat : ℚ) (intervals : List ℕ)
  deriving DecidableEq

/-- The three transports (plus geocoding) the pipeline orchestrates, as
oracles.  `get_isochrones_with_fallback` catches every exception internally
and returns `None` on failure (`services/isochrone_service.py`), hence the
`Option` result. -/
structure Transports (P : Type) where
  geocode_location_detailed : String → Except PyExc (Option PoiDetails)
  search_by_coordinates : ℚ → ℚ → List String → ℕ → Option Weights →
    Except PyExc (List GdfRow)
  search_by_query : String → List String → ℕ → Option Weights →
    Except PyExc (List GdfRow)
  get_isochrones_with_fallback : (ℚ × ℚ) → List ℕ → Option (List (List P))

/-- The `query_data` dictionary (`query`, optional `filters`, `top_n`,
`weights`). -/
structure RunInput where
  query : String
  filters : Option (List String)
  top_n : Option ℕ
  weights : Option Weights

/-- Embeds `safe_float`: in the model ℚ has no NaN/inf — a NaN cell is
already `none`, which maps to `none` like the source. -/
def safe_float (v : Option ℚ) : Option ℚ := v

/-- Embeds `safe_int`: Python `int()` truncates toward zero; missing/NaN
becomes 0. -/
def safe_int (v : Option ℚ) : ℤ :=
  match v with
  | none => 0
  | some q => if 0 ≤ q then ⌊q⌋ else ⌈q⌉

/-- Embeds `Recommender._serialize_gdf`. -/
def serialize_gdf (gdf : List GdfRow) : List SerRow :=
  if gdf.length = 0 then []
  else
    gdf.map fun r =>
      { name := r.name.getD "Unknown"
        score := (safe_float r.score).getD 0
        tier := safe_int r.tier
        lat := safe_float r.lat
        lon := safe_float r.lon
        osmid := r.osmid
        osmtype := r.osmtype
        tourism := r.tourism
        rating := safe_float r.rating
        amenities := r.tags }

/-- Embeds `Recommender._calculate_tier_stats` (`value_counts().get(k, 0)`
for k = 0..3). -/
def calculate_tier_stats (gdf : List GdfRow) : Stats :=
  if gdf.length = 0 then ⟨0, 0, 0, 0⟩
  else
    ⟨gdf.countP (fun r => r.tier == some 0),
     gdf.countP (fun r => r.tier == some 1),
     gdf.countP (fun r => r.tier == some 2),
     gdf.countP (fun r => r.tier == some 3)⟩

/-- Embeds `Recommender._build_main_poi_data`. -/
def build_main_poi_data (name : String) (location : Option String)
    (details : Option PoiDetails) : MainPoi :=
  match details with
  | some d =>
    ⟨name, location, safe_float d.lat, safe_float d.lon, d.display_name,
     d.ptype, d.addr⟩
  | none => ⟨name, location, none, none, none, none, none⟩

/-- Substring containment over character lists (Python `in` on strings). -/
def contains_sub (needle : List Char) : List Char → Bool
  | [] => needle.isEmpty
  | c :: t => List.isPrefixOf needle (c :: t) || contains_sub needle t

/-- Substring containment on strings. -/
def str_contains (hay needle : String) : Bool :=
  contains_sub needle.data hay.data

/-- The location keyword table of `LocationExtractor` (iterated in insertion
order; values are the canonical regions, all nonempty). -/
def LOCATION_KEYWORDS : List (String × String) :=
  [("沖繩", "沖繩"), ("台北", "台北"), ("東京", "東京"), ("大阪", "大阪"),
   ("京都", "京都"), ("那霸", "沖繩"), ("Okinawa", "沖繩")]

/-- Embeds `LocationExtractor.extract` (and thus
`extract_location_from_query`, which runs it on the original query). -/
def extract_location (text : String) : Option String :=
  if text = "" then none
  else (LOCATION_KEYWORDS.find? fun kv => str_contains text kv.1).map fun kv => kv.2

/-- The attraction keyword list of `_extract_attraction_from_query`. -/
def attraction_keywords : List String :=
  ["水族館", "博物館", "美術館", "動物園", "遊樂園", "主題樂園",
   "城堡", "神社", "寺廟", "公園", "廣場", "塔", "橋", "海灘",
   "溫泉", "滑雪場", "商場", "百貨", "市場", "街道", "老街"]

/-- Index of the first occurrence of a substring (Python `str.find`). -/
def find_sub_idx (needle : List Char) : List Char → Option ℕ
  | [] => if needle.isEmpty then some 0 else none
  | c :: t =>
    if List.isPrefixOf needle (c :: t) then some 0
    else (find_sub_idx needle t).map (· + 1)

/-- Character class used in the attraction scan: Python `str.isalnum` (on the
script ranges occurring in this repository: ASCII alphanumerics, CJK unified
ideographs, kana) or the explicit CJK range check of the source. -/
def py_isalnum_cjk (c : Char) : Bool :=
  c.isAlphanum || (0x4e00 ≤ c.toNat && c.toNat ≤ 0x9fff)
    || (0x3040 ≤ c.toNat && c.toNat ≤ 0x30ff)

/-- Acceptance test for one character of the backwards scan (alphanumeric or
CJK, and not one of the excluded function words). -/
def scan_char_ok (c : Char) : Bool :=
  py_isalnum_cjk c && !(['去', '到', '想', '的', '在', '和', '與'].contains c)

/-- Longest suffix of a character list whose characters all pass `p` (the
backwards scan with break). -/
def take_suffix_while (p : Char → Bool) (l : List Char) : List Char :=
  (l.reverse.takeWhile p).reverse

/-- Embeds `Recommender._extract_attraction_from_query`. -/
def extract_attraction (query : String) : Option String :=
  (attraction_keywords.find? fun kw => str_contains query kw).map fun kw =>
    let chars := query.data
    let keyword_pos := (find_sub_idx kw.data chars).getD 0
    let start_pos := if keyword_pos ≥ 10 then keyword_pos - 10 else 0
    let slice := (chars.drop start_pos).take (keyword_pos - start_pos)
    let potential_name := take_suffix_while scan_char_ok slice
    let full_name := potential_name ++ kw.data
    if full_name.length > kw.data.length ∧ full_name.length ≤ 20 then
      String.mk full_name
    else kw

/-- Order-preserving deduplication with a seen set
(`Recommender._merge_filters`). -/
def dedup_keep_first : List String → List String → List String
  | [], _ => []
  | x :: rest, seen =>
    if seen.contains x then dedup_keep_first rest seen
    else x :: dedup_keep_first rest (x :: seen)

/-- Embeds `Recommender._merge_filters`. -/
def merge_filters (parsed_filters : List String)
    (api_filters : Option (List String)) : List String :=
  dedup_keep_first (parsed_filters ++ api_filters.getD []) []

/-- String order via `compare` (Python `sorted` on strings). -/
def str_le (a b : String) : Bool :=
  match compare a b with
  | .gt => false
  | _ => true

/-- Insertion into a sorted string list. -/
def insert_sorted (x : String) : List String → List String
  | [] => [x]
  | y :: ys => if str_le y x then y :: insert_sorted x ys else x :: y :: ys

/-- Ascending sort of a string list. -/
def sort_strings (l : List String) : List String :=
  l.foldr insert_sorted []

/-- Embeds `Recommender._build_cache_key` (the md5 of the canonical JSON is
replaced by the normalized tuple itself). -/
def build_cache_key (poi : String) (place : Option String)
    (filters : List String) (weights : Option Weights) (profile : String) :
    CKey :=
  ⟨poi, place.getD "", if filters.isEmpty then [] else sort_strings filters,
   weights, profile⟩

/-- Insertion into a timestamp-sorted cache entry list. -/
def insert_by_ts (x : CKey × RunResult × ℚ) :
    List (CKey × RunResult × ℚ) → List (CKey × RunResult × ℚ)
  | [] => [x]
  | y :: ys => if decide (y.2.2 ≤ x.2.2) then y :: insert_by_ts x ys else x :: y :: ys

/-- Ascending sort of cache entries by store timestamp
(`sorted(self._cache.items(), key=...)`). -/
def sort_by_ts (l : List (CKey × RunResult × ℚ)) : List (CKey × RunResult × ℚ) :=
  l.foldr insert_by_ts []

/-- Embeds `Recommender._cleanup_cache`: throttled by the cleanup interval;
purges TTL-expired entries, then deletes the oldest entries down to the
maximum size. -/
def cleanup_cache (cfg : CacheCfg) (st : PState) (now : ℚ) : PState :=
  if now - st.last_cleanup_time < cfg.cleanup_interval then st
  else
    let cache1 := st.cache.filter fun e => !decide (now - e.2.2 > cfg.ttl)
    let cache2 :=
      if cache1.length > cfg.maxsize then
        let sorted_items := sort_by_ts cache1
        let to_remove := (sorted_items.take (cache1.length - cfg.maxsize)).map
          fun e => e.1
        cache1.filter fun e => !(to_remove.contains e.1)
      else cache1
    { st with cache := cache2, last_cleanup_time := now }

/-- Embeds `Recommender._get_from_cache` at value level (the deep-copy -vs-
shallow-copy distinction is modeled separately in `Innsight.CacheHeap`):
a fresh hit returns the entry with `top` truncated to `top_n`; an expired
entry is deleted and suffers a miss; cleanup is triggered on every path. -/
def get_from_cache (cfg : CacheCfg) (st : PState) (now : ℚ) (cache_key : CKey)
    (top_n : ℕ) : Option RunResult × PState :=
  match st.cache.lookup cache_key with
  | none =>
    let st1 := { st with cache_misses := st.cache_misses + 1 }
    (none, cleanup_cache cfg st1 now)
  | some (result, timestamp) =>
    if now - timestamp > cfg.ttl then
      let st1 := { st with
        cache := st.cache.eraseP (fun e => e.1 == cache_key),
        cache_misses := st.cache_misses + 1 }
      (none, cleanup_cache cfg st1 now)
    else
      let st1 := cleanup_cache cfg { st with cache_hits := st.cache_hits + 1 } now
      (some { result with top := result.top.take top_n }, st1)

/-- Dict write with insertion-order preservation. -/
def assoc_set (cache : List (CKey × RunResult × ℚ)) (k : CKey)
    (v : RunResult × ℚ) : List (CKey × RunResult × ℚ) :=
  if (cache.lookup k).isSome then
    cache.map fun e => if e.1 == k then (k, v) else e
  else
    cache ++ [(k, v)]

/-- Embeds `Recommender._save_to_cache` (the deep copy is value semantics
here). -/
def save_to_cache (st : PState) (cache_key : CKey) (result : RunResult)
    (now : ℚ) : PState :=
  { st with cache := assoc_set st.cache cache_key (result, now) }

/-- Embeds `Recommender._convert_isochrones_to_geojson`, with `exterior`
standing for `polygon.exterior.coords`. -/
def convert_isochrones_to_geojson {P : Type} (exterior : P → List (ℚ × ℚ)) :
    List (List P) → List GeoJson
  | [] => []
  | group :: rest =>
    match group with
    | [] => convert_isochrones_to_geojson exterior rest
    | [p] => GeoJson.polygon [exterior p] ::
        convert_isochrones_to_geojson exterior rest
    | ps => GeoJson.multiPolygon (ps.map fun p => [exterior p]) ::
        convert_isochrones_to_geojson exterior rest

/-- The empty `intervals` block. -/
def default_intervals : Intervals := ⟨[], "minutes", "driving-car"⟩

/-- The empty result returned for an empty query or a degraded run. -/
def empty_result (mp : MainPoi) : RunResult :=
  ⟨⟨0, 0, 0, 0⟩, [], mp, [], default_intervals⟩

/-- Outcome of the parse-and-geocode try block of `Recommender.run`
(pipeline.py:92-142): on any exception the except branch installs the
degraded defaults and counts a parsing failure. -/
structure ParsePhase where
  main_poi_name : String
  location : Option String
  poi : String
  parsed_filters : List String
  poi_details : Option PoiDetails
  main_poi_lat : Option ℚ
  main_poi_lon : Option ℚ
  failed : Bool
  calls : List TCall

/-- Embeds the parse-and-geocode try block of `Recommender.run`; the
`parse_query` collaborator is an oracle (the jieba-backed parser). -/
def parse_phase {P : Type} (tp : Transports P)
    (parse_query : String → Except PyExc ParsedQuery) (query : String) :
    ParsePhase :=
  match parse_query query with
  | .error _ => ⟨"未知景點", none, "", [], none, none, none, true, []⟩
  | .ok pq =>
    let location := extract_location query
    let poi := pq.poi
    let parsed_filters := pq.filters
    let name_term : String × String :=
      if poi ≠ "" then (poi, poi)
      else
        match location with
        | some loc => ((extract_attraction query).getD loc,
            (extract_attraction query).getD loc)
        | none => ("未知景點", "")
    if name_term.2 ≠ "" then
      match tp.geocode_location_detailed name_term.2 with
      | .ok details =>
        ⟨name_term.1, location, poi, parsed_filters, details,
         details.bind (fun d => d.lat), details.bind (fun d => d.lon), false,
         [.geocode name_term.2]⟩
      | .error _ =>
        ⟨"未知景點", none, "", [], none, none, none, true, [.geocode name_term.2]⟩
    else
      ⟨name_term.1, location, poi, parsed_filters, none, none, none, false, []⟩

/-- Choice of search transport in `Recommender.run`: coordinates from the
geocoded main POI when available, otherwise the query-based fallback. -/
def select_search {P : Type} (tp : Transports P) (query : String)
    (ph : ParsePhase) (merged_filters : List String) (top_n : ℕ)
    (weights : Option Weights) : Except PyExc (List GdfRow) × List TCall :=
  match ph.main_poi_lat, ph.main_poi_lon with
  | some la, some lo =>
    (tp.search_by_coordinates la lo merged_filters top_n weights,
     [TCall.searchCoords la lo merged_filters top_n])
  | _, _ =>
    (tp.search_by_query query merged_filters top_n weights,
     [TCall.searchQuery query merged_filters top_n])

/-- Isochrone-geometry part of `Recommender.run`: only attempted when main
POI coordinates exist; the service returns `None` on failure, yielding the
empty geometry. -/
def select_iso {P : Type} (exterior : P → List (ℚ × ℚ)) (tp : Transports P)
    (ph : ParsePhase) : List GeoJson × Intervals × List TCall :=
  match ph.main_poi_lat, ph.main_poi_lon with
  | some la, some lo =>
    (match tp.get_isochrones_with_fallback (lo, la) [15, 30, 60] with
     | some l =>
       if l.isEmpty then
         (([] : List GeoJson), default_intervals,
          [TCall.isochrones lo la [15, 30, 60]])
       else
         (convert_isochrones_to_geojson exterior l,
          (⟨[15, 30, 60], "minutes", "driving-car"⟩ : Intervals),
          [TCall.isochrones lo la [15, 30, 60]])
     | none =>
       (([] : List GeoJson), default_intervals,
        [TCall.isochrones lo la [15, 30, 60]]))
  | _, _ => (([] : List GeoJson), default_intervals, ([] : List TCall))

/-- Embeds the accommodation-search/result-building part of `Recommender.run`
(pipeline.py:170-244): external-dependency failures become
`ServiceUnavailableError`, any other exception degrades to an empty result. -/
def run_search {P : Type} (exterior : P → List (ℚ × ℚ)) (tp : Transports P)
    (st : PState) (now : ℚ) (query : String) (ph : ParsePhase)
    (merged_filters : List String) (top_n : ℕ) (weights : Option Weights)
    (cache_key : Option CKey) :
    Except PyExc RunResult × PState × List TCall :=
  match select_search tp query ph merged_filters top_n weights with
  | (.error e, calls1) =>
    if e.is_external_dep then
      (.error (.serviceUnavailable ("External service unavailable: " ++ e.msg)),
       st, ph.calls ++ calls1)
    else
      (.ok (empty_result
        (build_main_poi_data ph.main_poi_name ph.location ph.poi_details)),
       st, ph.calls ++ calls1)
  | (.ok gdf, calls1) =>
    let top_results := serialize_gdf gdf
    let stats := calculate_tier_stats gdf
    let iso := select_iso exterior tp ph
    let result : RunResult :=
      ⟨stats, top_results,
       build_main_poi_data ph.main_poi_name ph.location ph.poi_details,
       iso.1, iso.2.1⟩
    let st2 :=
      match cache_key with
      | some ck => save_to_cache st ck result now
      | none => st
    (.ok result, st2, ph.calls ++ calls1 ++ iso.2.2)

/-- Embeds `Recommender.run` (pipeline.py:60-244), returning the result or
raised exception, the pipeline state after the call, and the transports
invoked. -/
def run {P : Type} (exterior : P → List (ℚ × ℚ))
    (parse_query : String → Except PyExc ParsedQuery) (tp : Transports P)
    (cfg : CacheCfg) (st : PState) (now : ℚ) (query_data : RunInput) :
    Except PyExc RunResult × PState × List TCall :=
  let query := query_data.query
  let top_n := query_data.top_n.getD 20
  if query = "" then
    (.ok (empty_result (build_main_poi_data "未知景點" none none)), st, [])
  else
    let ph := parse_phase tp parse_query query
    let st1 :=
      if ph.failed then { st with parsing_failures := st.parsing_failures + 1 }
      else st
    let merged_filters := merge_filters ph.parsed_filters query_data.filters
    if ph.poi ≠ "" ∨ ph.location.isSome then
      let ck := build_cache_key ph.poi ph.location merged_filters
        query_data.weights "driving-car"
      match get_from_cache cfg st1 now ck top_n with
      | (some cached, st2) => (.ok cached, st2, ph.calls)
      | (none, st2) =>
        run_search exterior tp st2 now query ph merged_filters top_n
          query_data.weights (some ck)
    else
      run_search exterior tp st1 now query ph merged_filters top_n
        query_data.weights none

end Innsight.Pipeline

namespace Innsight.CacheHeap

/-- Leaf values of the Python object graph. -/
inductive PyLeaf where
  | str (s : String)
  | int (n : ℤ)
  | pynone
  deriving DecidableEq, Repr

/-- One Python object: a leaf, a dict whose fields point to other objects by
address, or a list of addresses.  Object identity (what `copy.deepcopy`
versus a shallow copy distinguishes) is the address. -/
inductive PyObj where
  | leaf (v : PyLeaf)
  | dict (fields : List (String × ℕ))
  | list (elems : List ℕ)
  deriving DecidableEq, Repr

/-- The heap: address -> object, addresses being list positions; allocation
appends. -/
abbrev Heap := List PyObj

/-- Heap read. -/
def heapGet (h : Heap) (a : ℕ) : Option PyObj := h.get? a

/-- In-place mutation of the object at an address (what a caller does to a
returned result). -/
def heapWrite (h : Heap) (a : ℕ) (o : PyObj) : Heap := h.set a o

/-- Pure value trees, for comparing what a reference denotes. -/
inductive PyVal where
  | leaf (v : PyLeaf)
  | dict (fields : List (String × PyVal))
  | list (elems : List PyVal)

/-- Reading the values denoted by a list of addresses, fuelled (the object
graphs here are small trees). -/
def readVals : ℕ → Heap → List ℕ → Option (List PyVal)
  | 0, _, _ => none
  | _ + 1, _, [] => some []
  | fuel + 1, h, a :: rest =>
    let cur : Option PyVal :=
      match heapGet h a with
      | none => none
      | some (.leaf v) => some (.leaf v)
      | some (.dict fs) =>
        match readVals fuel h (fs.map fun kv => kv.2) with
        | none => none
        | some vs => some (.dict ((fs.map fun kv => kv.1).zip vs))
      | some (.list es) =>
        match readVals fuel h es with
        | none => none
        | some vs => some (.list vs)
    match cur, readVals fuel h rest with
    | some v, some vs => some (v :: vs)
    | _, _ => none

/-- The value denoted by one address. -/
def readVal (fuel : ℕ) (h : Heap) (a : ℕ) : Option PyVal :=
  match readVals fuel h [a] with
  | some [v] => some v
  | _ => none

/-- Recursive copy of the objects at a list of addresses into fresh
allocations — `copy.deepcopy` (the graphs copied here are trees, so deepcopy
memoization of shared subobjects does not arise). -/
def copyVals : ℕ → Heap → List ℕ → Option (Heap × List ℕ)
  | 0, _, _ => none
  | _ + 1, h, [] => some (h, [])
  | fuel + 1, h, a :: rest =>
    match heapGet h a with
    | none => none
    | some (.leaf v) =>
      match copyVals fuel (h ++ [.leaf v]) rest with
      | none => none
      | some (h3, as) => some (h3, h.length :: as)
    | some (.dict fs) =>
      match copyVals fuel h (fs.map fun kv => kv.2) with
      | none => none
      | some (h2, as2) =>
        match copyVals fuel (h2 ++ [.dict ((fs.map fun kv => kv.1).zip as2)]) rest with
        | none => none
        | some (h3, as) => some (h3, h2.length :: as)
    | some (.list es) =>
      match copyVals fuel h es with
      | none => none
      | some (h2, es2) =>
        match copyVals fuel (h2 ++ [.list es2]) rest with
        | none => none
        | some (h3, as) => some (h3, h2.length :: as)

/-- `copy.deepcopy` of one object. -/
def deepcopy (fuel : ℕ) (h : Heap) (a : ℕ) : Option (Heap × ℕ) :=
  match copyVals fuel h [a] with
  | some (h2, [a2]) => some (h2, a2)
  | _ => none

/-- The pipeline result cache in the heap view: key -> (address, stored-at). -/
abbrev CacheH := List (String × ℕ × ℚ)

/-- Dict write preserving insertion order. -/
def cache_set (cache : CacheH) (k : String) (v : ℕ × ℚ) : CacheH :=
  if (cache.lookup k).isSome then
    cache.map fun e => if e.1 == k then (k, v) else e
  else
    cache ++ [(k, v)]

/-- Embeds `Recommender._save_to_cache` in the heap view: the result is
deep-copied and the copy's address stored with the current time
(pipeline.py:521-530). -/
def save_to_cache (fuel : ℕ) (h : Heap) (cache : CacheH) (key : String)
    (result_addr : ℕ) (now : ℚ) : Option (Heap × CacheH) :=
  match deepcopy fuel h result_addr with
  | none => none
  | some (h2, a2) => some (h2, cache_set cache key (a2, now))

/-- Embeds `Recommender._get_from_cache` in the heap view (pipeline.py:460-519,
counters and throttled cleanup aside — they are modeled at value level in
`Innsight.Pipeline`): a fresh hit builds the `result_copy` dict literally as
the source does — a **new** dict and a **new** top list sliced to `top_n`,
whose entries are the *same* cached objects (the slice copies the list, not
its elements), with `stats`, `main_poi`, `isochrone_geometry` and `intervals`
also shared by address. -/
def get_from_cache (h : Heap) (cache : CacheH) (key : String) (top_n : ℕ)
    (now ttl : ℚ) : (Option (Heap × ℕ)) × CacheH :=
  match cache.lookup key with
  | none => (none, cache)
  | some (addr, ts) =>
    if now - ts > ttl then
      (none, cache.eraseP fun e => e.1 == key)
    else
      match heapGet h addr with
      | some (.dict fs) =>
        match fs.lookup "stats", fs.lookup "top", fs.lookup "main_poi",
            fs.lookup "isochrone_geometry", fs.lookup "intervals" with
        | some a_stats, some a_top, some a_main, some a_iso, some a_int =>
          match heapGet h a_top with
          | some (.list es) =>
            let h2 := h ++ [.list (es.take top_n)]
            let h3 := h2 ++ [.dict [("stats", a_stats), ("top", h.length),
              ("main_poi", a_main), ("isochrone_geometry", a_iso),
              ("intervals", a_int)]]
            (some (h3, h2.length), cache)
          | _ => (none, cache)
        | _, _, _, _, _ => (none, cache)
      | _ => (none, cache)

/-- Failing input for C1: the heap holding a recommendation result `R` at
address 7 — `top` is the one-entry list at address 2, its entry the dict at
address 1 with a `name` leaf at address 0. -/
def example_heap : Heap :=
  [.leaf (.str "A"), .dict [("name", 0)], .list [1], .dict [], .dict [],
   .list [], .dict [],
   .dict [("stats", 3), ("top", 2), ("main_poi", 4),
          ("isochrone_geometry", 5), ("intervals", 6)]]

/-- The heap after `put(K, R)`: the deep copy of `R` occupies addresses
8 - 15. -/
def example_heap1 : Heap :=
  example_heap ++
    [.dict [], .leaf (.str "A"), .dict [("name", 9)], .list [10], .dict [],
     .list [], .dict [],
     .dict [("stats", 8), ("top", 11), ("main_poi", 12),
            ("isochrone_geometry", 13), ("intervals", 14)]]

/-- The heap after the first `get(K, 5)`: the shallow result copy allocates
only the sliced top list (16) and the outer dict (17), sharing all deeper
objects with the cache. -/
def example_heap2 : Heap :=
  example_heap1 ++
    [.list [10],
     .dict [("stats", 8), ("top", 16), ("main_poi", 12),
            ("isochrone_geometry", 13), ("intervals", 14)]]

/-- The caller access path `result["top"][0]["name"]` on a value tree, used
to discriminate the values the cache hands out. -/
def first_top_name : Option PyVal → Option String
  | some (.dict fs) =>
    match fs.lookup "top" with
    | some (.list (e :: _)) =>
      match e with
      | .dict fs2 =>
        match fs2.lookup "name" with
        | some (.leaf (.str s)) => some s
        | _ => none
      | _ => none
    | _ => none
  | _ => none

end Innsight.CacheHeap


namespace Innsight.QueryParse

/-- Helper: evaluating `extract` on the pair day = N, night = N - 1 for
2 ≤ N: the pair is logical, resolves to N, and is then range-checked. -/
theorem extract_pair_resolved (N : ℕ) (h2 : 2 ≤ N) :
    extract false [(N : ℚ)] [(N : ℚ) - 1] =
      if (N : ℚ) > MAX_DAYS then
        .error (.daysOutOfRange "Days exceeds maximum of 14")
      else .ok (some (N : ℚ)) := by
  have h2Q : (2 : ℚ) ≤ (N : ℚ) := by exact_mod_cast h2
  have ha : (N : ℚ) ≠ 2⁻¹ := by
    intro h; rw [h] at h2Q; norm_num at h2Q
  have hb : (N : ℚ) - 1 ≠ 2⁻¹ := by
    intro h
    have h3 : (N : ℚ) = 2⁻¹ + 1 := by linarith
    rw [h3] at h2Q; norm_num at h2Q
  have hne : (N : ℚ) - 1 ≠ (N : ℚ) := by intro h; linarith
  have hhalf : contains_half_day [(N : ℚ), (N : ℚ) - 1] = false := by
    simp [contains_half_day, ha, hb]
  have hillog : is_illogical_combination [(N : ℚ)] [(N : ℚ) - 1] = false := by
    simp only [is_illogical_combination, List.isEmpty_cons, Bool.or_self,
      Bool.false_eq_true, if_false, decide_eq_false_iff_not]
    rintro ⟨h, -⟩; linarith
  have hfound : extract_all_days [(N : ℚ)] [(N : ℚ) - 1] = [(N : ℚ), (N : ℚ) - 1] := by
    unfold extract_all_days
    rw [show [(N : ℚ)] ++ [(N : ℚ) - 1] = [(N : ℚ), (N : ℚ) - 1] from rfl, hhalf, hillog]
    simp
  have hdedup : ([(N : ℚ), (N : ℚ) - 1] : List ℚ).dedup = [(N : ℚ), (N : ℚ) - 1] := by
    rw [List.dedup_eq_self]
    simp [hne.symm]
  have hmin : min ((N : ℚ) - 1) (min (N : ℚ) ((N : ℚ))) = (N : ℚ) - 1 := by
    rw [min_self]; exact min_eq_left (by linarith)
  have hmax : max ((N : ℚ) - 1) (max (N : ℚ) ((N : ℚ))) = (N : ℚ) := by
    rw [max_self]; exact max_eq_right (by linarith)
  have hresolve : resolve_conflicts [(N : ℚ), (N : ℚ) - 1] = .ok (N : ℚ) := by
    unfold resolve_conflicts
    rw [hdedup]
    norm_num [List.foldr, hmin, hmax]
  unfold extract
  rw [if_neg (by simp), hfound]
  rw [if_neg (by simp)]
  rw [hresolve]
  simp only [bind, Except.bind]
  unfold validate_range MAX_DAYS
  by_cases hc : (14 : ℚ) < (N : ℚ)
  · rw [if_pos hc, if_pos hc]
  · rw [if_neg hc, if_neg hc]

/-- Helper: evaluating `extract` on the pair day = N, night = N - 1 for
2 ≤ N ≤ 14 gives N. -/
theorem extract_pair_eval (N : ℕ) (h2 : 2 ≤ N) (h14 : N ≤ 14) :
    extract false [(N : ℚ)] [(N : ℚ) - 1] = .ok (some (N : ℚ)) := by
  rw [extract_pair_resolved N h2, if_neg]
  unfold MAX_DAYS
  push_neg
  exact_mod_cast h14

/-- Helper: evaluating `extract` on the pair day = N, night = N + 1 (the
illogical direction) gives no duration, for any N ≥ 1. -/
theorem extract_illogical_eval (N : ℕ) (h1 : 1 ≤ N) :
    extract false [(N : ℚ)] [(N : ℚ) + 1] = .ok none := by
  have h1Q : (1 : ℚ) ≤ (N : ℚ) := by exact_mod_cast h1
  have ha : (N : ℚ) ≠ 2⁻¹ := by
    intro h; rw [h] at h1Q; norm_num at h1Q
  have hb : (N : ℚ) + 1 ≠ 2⁻¹ := by
    intro h
    have h3 : (N : ℚ) = 2⁻¹ - 1 := by linarith
    rw [h3] at h1Q; norm_num at h1Q
  have hhalf : contains_half_day [(N : ℚ), (N : ℚ) + 1] = false := by
    simp [contains_half_day, ha, hb]
  have hillog : is_illogical_combination [(N : ℚ)] [(N : ℚ) + 1] = true := by
    simp only [is_illogical_combination, List.isEmpty_cons, Bool.or_self,
      Bool.false_eq_true, if_false, decide_eq_true_eq]
    constructor
    · linarith
    · linarith
  have hfound : extract_all_days [(N : ℚ)] [(N : ℚ) + 1] = [] := by
    unfold extract_all_days
    rw [show [(N : ℚ)] ++ [(N : ℚ) + 1] = [(N : ℚ), (N : ℚ) + 1] from rfl, hhalf, hillog]
    simp
  unfold extract
  rw [if_neg (by simp), hfound]
  simp

/-- C5, counterexample: the phrase with the single day value 15 and the single
night value 14 (such as `15天14夜`) makes parsing fail with
`DaysOutOfRangeError`; it does not return 15, so the claim as stated (parsing
returns N for every such phrase) is false at N = 15. -/
theorem C5_counterexample :
    extract false [(15 : ℚ)] [(14 : ℚ)] =
        .error (.daysOutOfRange "Days exceeds maximum of 14") ∧
      extract false [(15 : ℚ)] [(14 : ℚ)] ≠ .ok (some (15 : ℚ)) := by
  have h := extract_pair_resolved 15 (by norm_num)
  rw [if_pos (by unfold MAX_DAYS; norm_num)] at h
  norm_num at h
  exact ⟨h, by rw [h]; intro hh; cases hh⟩

/-- C5 (amended): for every phrase whose scans yield exactly one day value N
and one night value N - 1, with N at most the 14-day maximum, duration
extraction returns N (for N above the maximum it fails with a range error, see
the counterexample); and for every phrase where the single day value is exactly
1 less than the single night value, extraction returns no duration rather than
a value or an error. -/
theorem C5_duration_extraction :
    (∀ N : ℕ, 2 ≤ N → N ≤ 14 →
      extract false [(N : ℚ)] [(N : ℚ) - 1] = .ok (some (N : ℚ))) ∧
    (∀ N : ℕ, 1 ≤ N →
      extract false [(N : ℚ)] [(N : ℚ) + 1] = .ok none) :=
  ⟨extract_pair_eval, extract_illogical_eval⟩

/-- Witness for C5: the spec examples `3天2夜` (returns 3) and `1天2夜`
(returns no duration). -/
theorem C5_duration_extraction_witness :
    extract false [(3 : ℚ)] [(2 : ℚ)] = .ok (some (3 : ℚ)) ∧
    extract false [(1 : ℚ)] [(2 : ℚ)] = .ok none := by
  refine ⟨?_, ?_⟩
  · have h := C5_duration_extraction.1 3 (by norm_num) (by norm_num)
    norm_num at h
    exact h
  · have h := C5_duration_extraction.2 1 (by norm_num)
    norm_num at h
    exact h

end Innsight.QueryParse

namespace Innsight.Rating

/-- C8 (amended): when the effective (merged) weights sum to zero and none of
them is negative (equivalently, they are all zero), scoring fails with the
divide-by-zero-class error rather than returning a zero score.  (When the
zero sum is reached through a negative weight the earlier non-negativity
validation fires instead — see the counterexample.) -/
theorem C8_zero_weights (parseFloat : String → Option ℚ) (row : Row)
    (weights : Option (List (String × ℚ)))
    (hnn : ∀ kv ∈ merge_weights weights default_weights, 0 ≤ kv.2)
    (hsum : ((merge_weights weights default_weights).map (fun kv => kv.2)).sum = 0) :
    score_accommodation parseFloat row weights =
      .error (.zeroDivision "All weights cannot be zero") := by
  have hany : (merge_weights weights default_weights).any
      (fun kv => decide (kv.2 < 0)) = false := by
    rw [List.any_eq_false]
    intro kv hkv
    simp only [decide_eq_true_eq, not_lt]
    exact hnn kv hkv
  have hval : validate_weights (merge_weights weights default_weights) =
      .error (.zeroDivision "All weights cannot be zero") := by
    unfold validate_weights
    rw [hany]
    simp only [Bool.false_eq_true, if_false]
    rw [if_pos hsum]
  simp only [score_accommodation, hval, bind, Except.bind]

/-- Helper: the merged weight list for the all-zero override. -/
theorem merge_weights_all_zero :
    merge_weights (some [("tier", (0 : ℚ)), ("rating", 0), ("parking", 0),
        ("wheelchair", 0), ("kids", 0), ("pet", 0)]) default_weights =
      [("tier", 0), ("rating", 0), ("parking", 0), ("wheelchair", 0),
       ("kids", 0), ("pet", 0)] := by
  simp [merge_weights, default_weights, List.lookup]

/-- Witness for C8: all six effective weights supplied as zero. -/
theorem C8_zero_weights_witness :
    score_accommodation (fun _ => none) ⟨some 2, none, []⟩
      (some [("tier", 0), ("rating", 0), ("parking", 0), ("wheelchair", 0),
             ("kids", 0), ("pet", 0)]) =
      .error (.zeroDivision "All weights cannot be zero") := by
  apply C8_zero_weights
  · intro kv hkv
    rw [merge_weights_all_zero] at hkv
    fin_cases hkv <;> norm_num
  · rw [merge_weights_all_zero]
    norm_num

/-- Helper: the merged weight list for the cancelling override. -/
theorem merge_weights_cancelling :
    merge_weights (some [("tier", (-1 : ℚ)), ("rating", 1), ("parking", 0),
        ("wheelchair", 0), ("kids", 0), ("pet", 0)]) default_weights =
      [("tier", -1), ("rating", 1), ("parking", 0), ("wheelchair", 0),
       ("kids", 0), ("pet", 0)] := by
  simp [merge_weights, default_weights, List.lookup]

/-- C8, counterexample: merged weights that sum to zero through a negative
entry (tier −1, rating 1, the rest 0) fail with the negative-weight
`ValueError`, not with the divide-by-zero-class error, so the claim as stated
(zero *sum* implies divide-by-zero error) is false. -/
theorem C8_counterexample :
    ((merge_weights (some [("tier", -1), ("rating", 1), ("parking", 0),
        ("wheelchair", 0), ("kids", 0), ("pet", 0)]) default_weights).map
          (fun kv => kv.2)).sum = 0 ∧
    score_accommodation (fun _ => none) ⟨some 2, none, []⟩
      (some [("tier", -1), ("rating", 1), ("parking", 0), ("wheelchair", 0),
             ("kids", 0), ("pet", 0)]) =
      .error (.valueError "weights must be >= 0") := by
  constructor
  · rw [merge_weights_cancelling]
    norm_num
  · have hval : validate_weights (merge_weights (some [("tier", -1), ("rating", 1),
        ("parking", 0), ("wheelchair", 0), ("kids", 0), ("pet", 0)]) default_weights) =
        .error (.valueError "weights must be >= 0") := by
      rw [merge_weights_cancelling]
      unfold validate_weights
      rw [if_pos]
      norm_num
    simp only [score_accommodation, hval, bind, Except.bind]

end Innsight.Rating

namespace Innsight.Ors

/-- Helper: a constantly-failing transient transport exhausts all remaining
attempts with the geometric sleep schedule. -/
theorem retry_from_transient (f : ℕ → Except FetchErr α) (max_attempts : ℕ)
    (backoff : ℚ) (e : FetchErr) (he : is_transient e = true)
    (hf : ∀ n, f n = .error e) :
    ∀ rem attempt delay, 1 ≤ rem → attempt + rem = max_attempts →
      retry_from f max_attempts backoff attempt delay rem =
        ⟨.error (transform_final e), rem, geometric_delays delay backoff (rem - 1)⟩ := by
  have hnet : is_network_exc e = true := (Bool.and_elim_left he)
  have hhttp : http_not_retryable e = false := by
    cases e with
    | httpError s t =>
      simp only [is_transient, is_network_exc, Bool.true_and] at he
      simp [http_not_retryable, he]
    | timeout m => rfl
    | connError m => rfl
    | jsonDecodeError m => rfl
    | apiError m => rfl
  intro rem
  induction rem with
  | zero => intro attempt delay h1 h2; omega
  | succ r ih =>
    intro attempt delay h1 h2
    unfold retry_from
    rw [hf attempt]
    simp only [hnet, hhttp, Bool.true_eq_false, if_false, Bool.false_eq_true]
    rcases Nat.eq_zero_or_pos r with hr | hr
    · subst hr
      have hlast : (attempt == max_attempts - 1) = true := by
        rw [beq_iff_eq]
        omega
      rw [if_pos (by rw [hlast])]
      rfl
    · obtain ⟨q, rfl⟩ : ∃ q, r = q + 1 := ⟨r - 1, by omega⟩
      have hnotlast : (attempt == max_attempts - 1) = false := by
        rw [beq_eq_false_iff_ne]
        omega
      rw [if_neg (by rw [hnotlast]; exact Bool.false_ne_true)]
      rw [ih (attempt + 1) (delay * backoff) (by omega) (by omega)]
      simp only [geometric_delays, Nat.succ_sub_one, Nat.add_sub_cancel]

/-- C7: for every call failing with a transient error (timeout, connection
failure, HTTP 429/5xx, malformed response body) the wrapped transport is
retried up to the configured maximum attempt count, sleeping the configured
delay multiplied by the backoff factor after each non-final attempt, and the
last (suitably transformed) error is re-raised; an HTTP error with any other
status — in particular any other 4xx — propagates immediately after the first
call with no retry and no sleep. -/
theorem C7_retry_contract {α : Type} :
    (∀ (max_attempts : ℕ) (delay backoff : ℚ) (f : ℕ → Except FetchErr α)
        (e : FetchErr),
       1 ≤ max_attempts → is_transient e = true → (∀ n, f n = .error e) →
       retry_on_network_error max_attempts delay backoff f =
         ⟨.error (transform_final e), max_attempts,
          geometric_delays delay backoff (max_attempts - 1)⟩) ∧
    (∀ (max_attempts : ℕ) (delay backoff : ℚ) (f : ℕ → Except FetchErr α)
        (s : ℕ) (text : String),
       1 ≤ max_attempts → ¬ retryable_status s = true →
       f 0 = .error (.httpError s text) →
       retry_on_network_error max_attempts delay backoff f =
         ⟨.error (.httpError s text), 1, []⟩) := by
  constructor
  · intro ma delay backoff f e h1 he hf
    unfold retry_on_network_error
    exact retry_from_transient f ma backoff e he hf ma 0 delay h1 (by omega)
  · intro ma delay backoff f s text h1 hs hf
    unfold retry_on_network_error
    obtain ⟨r, hr⟩ : ∃ r, ma = r + 1 := ⟨ma - 1, by omega⟩
    rw [hr]
    unfold retry_from
    rw [hf]
    have hs2 : retryable_status s = false := by
      rw [Bool.eq_false_iff]
      exact fun hh => hs hh
    simp only [is_network_exc, Bool.true_eq_false, if_false]
    rw [if_pos (by simp [http_not_retryable, hs2])]

/-- Witness for C7: three attempts at delay 1 with backoff 2 on a constant
timeout sleep `[1, 2]` and re-raise the timeout; a 404 propagates after one
call. -/
theorem C7_retry_contract_witness :
    retry_on_network_error 3 1 2 (fun _ => (.error (.timeout "t") : Except FetchErr ℕ)) =
        ⟨.error (.timeout "t"), 3, [1, 2]⟩ ∧
    retry_on_network_error 3 1 2 (fun _ => (.error (.httpError 404 "nf") : Except FetchErr ℕ)) =
        ⟨.error (.httpError 404 "nf"), 1, []⟩ := by
  constructor
  · have h := C7_retry_contract.1 3 1 2 (fun _ => (.error (.timeout "t") : Except FetchErr ℕ))
      (.timeout "t") (by norm_num) (by rfl) (fun _ => rfl)
    rw [h]
    simp only [transform_final, geometric_delays]
    norm_num
  · exact C7_retry_contract.2 3 1 2 _ 404 "nf" (by norm_num) (by decide) rfl

/-- C6 (amended): (1) whenever any cached value exists for the key — fresh or
expired — a call whose transport fails with a network-class error (timeout,
connection failure, HTTP error, malformed body) returns the cached value
instead of propagating; (2) when no cached value exists, such a failure is
raised as the transport-unavailable `IsochroneError`; (3) in particular, after
one successful fetch from an empty cache, a later call with the same key whose
transport fails with a network-class error returns the previously cached
polygons.  (A non-network failure such as an ORS API-error payload propagates
even when a cached value exists — see the counterexample.) -/
theorem C6_stale_fallback {κ α : Type} [DecidableEq κ] :
    (∀ (maxsize : ℕ) (ttl_hours : ℚ) (k : κ) (now : ℚ)
        (f : Unit → Except FetchErr α) (cache : FbCache κ α) (v : α) (t : ℚ)
        (e : FetchErr),
       List.lookup k cache = some (v, t) → f () = .error e →
       is_network_exc e = true →
       (fallback_call maxsize ttl_hours k now f cache).1 = .ok v) ∧
    (∀ (maxsize : ℕ) (ttl_hours : ℚ) (k : κ) (now : ℚ)
        (f : Unit → Except FetchErr α) (cache : FbCache κ α) (e : FetchErr),
       List.lookup k cache = none → f () = .error e → is_network_exc e = true →
       (fallback_call maxsize ttl_hours k now f cache).1 =
         .error (.isochroneError "Isochrone request failed and no cache available")) ∧
    (∀ (maxsize : ℕ) (ttl_hours : ℚ) (k : κ) (t1 t2 : ℚ) (polys : α)
        (e : FetchErr) (f2 : Unit → Except FetchErr α),
       1 ≤ maxsize → f2 () = .error e → is_network_exc e = true →
       (fallback_call maxsize ttl_hours k t1 (fun _ => .ok polys) ([] : FbCache κ α)).2.1 =
           [(k, polys, t1)] ∧
       (fallback_call maxsize ttl_hours k t2 f2 [(k, polys, t1)]).1 = .ok polys) := by
  have hcached : ∀ (maxsize : ℕ) (ttl_hours : ℚ) (k : κ) (now : ℚ)
      (f : Unit → Except FetchErr α) (cache : FbCache κ α) (v : α) (t : ℚ)
      (e : FetchErr),
      List.lookup k cache = some (v, t) → f () = .error e →
      is_network_exc e = true →
      (fallback_call maxsize ttl_hours k now f cache).1 = .ok v := by
    intro maxsize ttl_hours k now f cache v t e hlk hf hnet
    by_cases hfresh : (now - t) / 3600 ≤ ttl_hours
    · simp [fallback_call, hlk, if_pos hfresh]
    · simp [fallback_call, hlk, if_neg hfresh, fallback_transport, hf, hnet]
  refine ⟨hcached, ?_, ?_⟩
  · intro maxsize ttl_hours k now f cache e hlk hf hnet
    simp [fallback_call, hlk, fallback_transport, hf, hnet]
  · intro maxsize ttl_hours k t1 t2 polys e f2 hms hf2 hnet
    have hstep : fallback_call maxsize ttl_hours k t1 (fun _ => .ok polys)
        ([] : FbCache κ α) = (.ok polys, [(k, polys, t1)], true) := by
      simp only [fallback_call, List.lookup_nil, fallback_transport, fb_set,
        List.lookup_nil, Option.isSome_none, Bool.false_eq_true, if_false,
        List.nil_append, List.length_cons, List.length_nil]
      rw [if_neg (by omega)]
    refine ⟨by rw [hstep], ?_⟩
    exact hcached maxsize ttl_hours k t2 f2 [(k, polys, t1)] polys t1 e
      (by simp [List.lookup]) hf2 hnet

/-- Witness for C6: a concrete success at time 0 followed at time 10 by a
connection failure returns the cached value 7; the same failure against an
empty cache raises the `IsochroneError`. -/
theorem C6_stale_fallback_witness :
    (fallback_call 128 24 "isochrones" 10
        (fun _ => (.error (.connError "down") : Except FetchErr ℕ))
        [("isochrones", 7, 0)]).1 = .ok 7 ∧
    (fallback_call 128 24 "isochrones" 10
        (fun _ => (.error (.connError "down") : Except FetchErr ℕ))
        ([] : FbCache String ℕ)).1 =
      .error (.isochroneError "Isochrone request failed and no cache available") := by
  constructor
  · exact C6_stale_fallback.1 128 24 "isochrones" 10 _ _ 7 0 (.connError "down")
      (by simp [List.lookup]) rfl rfl
  · exact C6_stale_fallback.2.1 128 24 "isochrones" 10 _ _ (.connError "down")
      rfl rfl rfl

/-- C6, counterexample: with a cached value present (stored at time 0) but
expired (the call happens 100000 seconds ≈ 27.8 h later, past the 24 h TTL),
a transport failure with the repository's `APIError` (an error payload in a
200 response) propagates instead of returning the cached polygons, so the
claim as stated — every failing later call returns the cached value — is
false; the stale fallback only covers the four network-class error types. -/
theorem C6_counterexample :
    (List.lookup "isochrones" [("isochrones", (7 : ℕ), (0 : ℚ))]).isSome = true ∧
    (fallback_call 128 24 "isochrones" 100000
        (fun _ => (.error (.apiError "ORS API error 500") : Except FetchErr ℕ))
        [("isochrones", 7, 0)]).1 =
      .error (.fetch (.apiError "ORS API error 500")) := by
  have hlk : List.lookup "isochrones" [("isochrones", (7 : ℕ), (0 : ℚ))] =
      some (7, 0) := by simp [List.lookup]
  constructor
  · simp [List.lookup]
  · simp only [fallback_call, hlk]
    rw [if_neg (by norm_num)]
    simp [fallback_transport, is_network_exc]

end Innsight.Ors

namespace Innsight.Tier

/-- Helper: a found column index is within the column list. -/
theorem idx_of_lt_length : ∀ (l : List String) (c : String) (i : ℕ),
    idx_of l c = some i → i < l.length := by
  intro l
  induction l with
  | nil => intro c i h; cases h
  | cons x rest ih =>
    intro c i h
    unfold idx_of at h
    by_cases hx : (x == c) = true
    · rw [if_pos hx] at h
      cases h
      simp
    · rw [if_neg hx] at h
      rcases Option.map_eq_some'.mp h with ⟨j, hj, rfl⟩
      have := ih c j hj
      simp only [List.length_cons]
      omega

/-- Helper: the label at a found column index is the label searched for. -/
theorem idx_of_get : ∀ (l : List String) (c : String) (i : ℕ),
    idx_of l c = some i → l.getD i "" = c := by
  intro l
  induction l with
  | nil => intro c i h; cases h
  | cons x rest ih =>
    intro c i h
    unfold idx_of at h
    by_cases hx : (x == c) = true
    · rw [if_pos hx] at h
      cases h
      simpa using (beq_iff_eq.mp hx)
    · rw [if_neg hx] at h
      rcases Option.map_eq_some'.mp h with ⟨j, hj, rfl⟩
      simpa using ih c j hj

/-- Helper: an index found in a prefix is found in the appended list. -/
theorem idx_of_append_left : ∀ (l l2 : List String) (c : String) (i : ℕ),
    idx_of l c = some i → idx_of (l ++ l2) c = some i := by
  intro l
  induction l with
  | nil => intro l2 c i h; cases h
  | cons x rest ih =>
    intro l2 c i h
    simp only [idx_of, List.cons_append, List.append_eq] at h ⊢
    by_cases hx : (x == c) = true
    · rw [if_pos hx] at h ⊢
      exact h
    · rw [if_neg hx] at h ⊢
      rcases Option.map_eq_some'.mp h with ⟨j, hj, rfl⟩
      rw [ih l2 c j hj]
      rfl

/-- Helper: appending a fresh label places it at the end. -/
theorem idx_of_append_self : ∀ (l : List String) (c : String),
    idx_of l c = none → idx_of (l ++ [c]) c = some l.length := by
  intro l
  induction l with
  | nil => intro c _; simp [idx_of]
  | cons x rest ih =>
    intro c h
    simp only [idx_of, List.cons_append, List.append_eq] at h ⊢
    by_cases hx : (x == c) = true
    · rw [if_pos hx] at h
      cases h
    · rw [if_neg hx] at h ⊢
      have hrest : idx_of rest c = none := by
        cases hr : idx_of rest c with
        | none => rfl
        | some j => rw [hr] at h; cases h
      rw [ih c hrest]
      simp

/-- Helper: `getD` after setting the same position. -/
theorem getD_set_self {α : Type} : ∀ (l : List α) (i : ℕ) (v d : α),
    i < l.length → (l.set i v).getD i d = v := by
  intro l
  induction l with
  | nil => intro i v d h; simp at h
  | cons x rest ih =>
    intro i v d h
    cases i with
    | zero => rfl
    | succ j =>
      simp only [List.set_cons_succ, List.getD_cons_succ]
      exact ih j v d (by simpa using h)

/-- Helper: `getD` after setting a different position. -/
theorem getD_set_ne {α : Type} : ∀ (l : List α) (i j : ℕ) (v d : α),
    i ≠ j → (l.set i v).getD j d = l.getD j d := by
  intro l
  induction l with
  | nil => intro i j v d _; simp [List.set]
  | cons x rest ih =>
    intro i j v d hne
    cases i with
    | zero =>
      cases j with
      | zero => exact absurd rfl hne
      | succ j2 => rfl
    | succ i2 =>
      cases j with
      | zero => rfl
      | succ j2 =>
        simp only [List.set_cons_succ, List.getD_cons_succ]
        exact ih i2 j2 v d (by omega)

/-- Helper: `getD` at the length of the prefix reads the appended element. -/
theorem getD_append_self {α : Type} : ∀ (l : List α) (v d : α),
    (l ++ [v]).getD l.length d = v := by
  intro l
  induction l with
  | nil => intro v d; rfl
  | cons x rest ih =>
    intro v d
    simp only [List.cons_append, List.length_cons, List.getD_cons_succ]
    exact ih v d

/-- Helper: `getD` below the length of the prefix reads the prefix. -/
theorem getD_append_lt {α : Type} : ∀ (l l2 : List α) (j : ℕ) (d : α),
    j < l.length → (l ++ l2).getD j d = l.getD j d := by
  intro l
  induction l with
  | nil => intro l2 j d h; simp at h
  | cons x rest ih =>
    intro l2 j d h
    cases j with
    | zero => rfl
    | succ j2 =>
      simp only [List.cons_append, List.getD_cons_succ]
      exact ih l2 j2 d (by simpa using h)

/-- Helper: reading back a column written over an existing one. -/
theorem map_getD_set : ∀ (rows : List (List PdVal)) (vals : List PdVal) (i : ℕ),
    (∀ r ∈ rows, i < r.length) → vals.length = rows.length →
    ((rows.zip vals).map (fun rv => rv.1.set i rv.2)).map (fun r => r.getD i .nan) =
      vals := by
  intro rows
  induction rows with
  | nil =>
    intro vals i _ hlen
    cases vals with
    | nil => rfl
    | cons v vs => simp at hlen
  | cons r rs ih =>
    intro vals i hmem hlen
    cases vals with
    | nil => simp at hlen
    | cons v vs =>
      simp only [List.zip_cons_cons, List.map_cons, List.cons.injEq]
      constructor
      · exact getD_set_self r i v .nan (hmem r (by simp))
      · exact ih vs i (fun x hx => hmem x (by simp [hx])) (by simpa using hlen)

/-- Helper: reading back a freshly appended column. -/
theorem map_getD_append : ∀ (rows : List (List PdVal)) (vals : List PdVal) (n : ℕ),
    (∀ r ∈ rows, r.length = n) → vals.length = rows.length →
    ((rows.zip vals).map (fun rv => rv.1 ++ [rv.2])).map (fun r => r.getD n .nan) =
      vals := by
  intro rows
  induction rows with
  | nil =>
    intro vals n _ hlen
    cases vals with
    | nil => rfl
    | cons v vs => simp at hlen
  | cons r rs ih =>
    intro vals n hmem hlen
    cases vals with
    | nil => simp at hlen
    | cons v vs =>
      simp only [List.zip_cons_cons, List.map_cons, List.cons.injEq]
      constructor
      · rw [show n = r.length from (hmem r (by simp)).symm]
        exact getD_append_self r v .nan
      · exact ih vs n (fun x hx => hmem x (by simp [hx])) (by simpa using hlen)

/-- Helper: a column overwrite leaves the other columns unchanged, row-wise. -/
theorem map_getD_set_ne : ∀ (rows : List (List PdVal)) (vals : List PdVal) (i j : ℕ),
    i ≠ j → vals.length = rows.length →
    ((rows.zip vals).map (fun rv => rv.1.set i rv.2)).map (fun r => r.getD j .nan) =
      rows.map (fun r => r.getD j .nan) := by
  intro rows
  induction rows with
  | nil =>
    intro vals i j _ hlen
    cases vals with
    | nil => rfl
    | cons v vs => simp at hlen
  | cons r rs ih =>
    intro vals i j hne hlen
    cases vals with
    | nil => simp at hlen
    | cons v vs =>
      simp only [List.zip_cons_cons, List.map_cons, List.cons.injEq]
      exact ⟨getD_set_ne r i j v .nan hne, ih vs i j hne (by simpa using hlen)⟩

/-- Helper: a column append leaves the existing columns unchanged, row-wise. -/
theorem map_getD_append_lt : ∀ (rows : List (List PdVal)) (vals : List PdVal)
    (j n : ℕ), (∀ r ∈ rows, r.length = n) → j < n → vals.length = rows.length →
    ((rows.zip vals).map (fun rv => rv.1 ++ [rv.2])).map (fun r => r.getD j .nan) =
      rows.map (fun r => r.getD j .nan) := by
  intro rows
  induction rows with
  | nil =>
    intro vals j n _ _ hlen
    cases vals with
    | nil => rfl
    | cons v vs => simp at hlen
  | cons r rs ih =>
    intro vals j n hmem hj hlen
    cases vals with
    | nil => simp at hlen
    | cons v vs =>
      simp only [List.zip_cons_cons, List.map_cons, List.cons.injEq]
      constructor
      · exact getD_append_lt r [v] j .nan (by rw [hmem r (by simp)]; exact hj)
      · exact ih vs j n (fun x hx => hmem x (by simp [hx])) hj (by simpa using hlen)

/-- Helper: writing a column keeps the row count (when the value list is
aligned). -/
theorem set_col_rows_length (df : DFrame) (c : String) (vals : List PdVal)
    (hlen : vals.length = df.rows.length) :
    (set_col df c vals).rows.length = df.rows.length := by
  unfold set_col
  cases col_idx df c <;> simp [List.length_zip, hlen]

/-- Helper: writing a column preserves well-formedness. -/
theorem set_col_wf (df : DFrame) (c : String) (vals : List PdVal)
    (hwf : df.wf) (_hlen : vals.length = df.rows.length) :
    (set_col df c vals).wf := by
  unfold set_col
  cases hidx : col_idx df c with
  | some i =>
    intro r hr
    simp only [List.mem_map] at hr
    rcases hr with ⟨rv, hrv, rfl⟩
    have := List.of_mem_zip hrv
    simp only [List.length_set]
    exact hwf rv.1 this.1
  | none =>
    intro r hr
    simp only [List.mem_map] at hr
    rcases hr with ⟨rv, hrv, rfl⟩
    have := List.of_mem_zip hrv
    simp [List.length_append, hwf rv.1 this.1]

/-- Helper: the column list after a write. -/
theorem set_col_cols (df : DFrame) (c : String) (vals : List PdVal) :
    (set_col df c vals).cols =
      match col_idx df c with
      | some _ => df.cols
      | none => df.cols ++ [c] := by
  unfold set_col
  cases col_idx df c <;> rfl

/-- Helper: a written column reads back as written. -/
theorem get_col_set_col (df : DFrame) (c : String) (vals : List PdVal)
    (hwf : df.wf) (hlen : vals.length = df.rows.length) :
    get_col (set_col df c vals) c = vals := by
  cases hidx : col_idx df c with
  | some i =>
    have hi : i < df.cols.length := idx_of_lt_length df.cols c i hidx
    unfold get_col set_col
    rw [hidx]
    simp only [col_idx, hidx]
    rw [show idx_of df.cols c = some i from hidx]
    exact map_getD_set df.rows vals i
      (fun r hr => by rw [hwf r hr]; exact hi) hlen
  | none =>
    unfold get_col set_col
    rw [hidx]
    simp only [col_idx]
    rw [idx_of_append_self df.cols c hidx]
    exact map_getD_append df.rows vals df.cols.length hwf hlen

/-- Helper: writing one column leaves every other existing column unchanged. -/
theorem get_col_set_col_other (df : DFrame) (c c2 : String) (vals : List PdVal)
    (hwf : df.wf) (hlen : vals.length = df.rows.length)
    (hc2 : (col_idx df c2).isSome) (hne : c2 ≠ c) :
    get_col (set_col df c vals) c2 = get_col df c2 := by
  rcases Option.isSome_iff_exists.mp hc2 with ⟨i2, hi2⟩
  have hi2lt : i2 < df.cols.length := idx_of_lt_length df.cols c2 i2 hi2
  have hi2b : idx_of df.cols c2 = some i2 := hi2
  cases hidx : col_idx df c with
  | some i =>
    have hii : i ≠ i2 := by
      intro hEq
      subst hEq
      have e1 := idx_of_get df.cols c i hidx
      have e2 := idx_of_get df.cols c2 i hi2
      exact hne (by rw [← e2, ← e1])
    have hsc : set_col df c vals =
        ⟨df.cols, (df.rows.zip vals).map fun rv => rv.1.set i rv.2⟩ := by
      unfold set_col
      rw [hidx]
    rw [hsc]
    unfold get_col
    simp only [col_idx, hi2b]
    simpa using map_getD_set_ne df.rows vals i i2 hii hlen
  | none =>
    have hsc : set_col df c vals =
        ⟨df.cols ++ [c], (df.rows.zip vals).map fun rv => rv.1 ++ [rv.2]⟩ := by
      unfold set_col
      rw [hidx]
    rw [hsc]
    unfold get_col
    simp only [col_idx, idx_of_append_left df.cols [c] c2 i2 hi2b, hi2b]
    simpa using map_getD_append_lt df.rows vals i2 df.cols.length hwf hi2lt hlen

/-- Helper: with no rows, the written values are irrelevant. -/
theorem set_col_rows_nil (df : DFrame) (hr : df.rows = []) (c : String)
    (v1 v2 : List PdVal) : set_col df c v1 = set_col df c v2 := by
  unfold set_col
  cases col_idx df c <;> simp [hr]

/-- Helper: an existing column has as many cells as there are rows. -/
theorem get_col_length (df : DFrame) (c : String) (h : (col_idx df c).isSome) :
    (get_col df c).length = df.rows.length := by
  rcases Option.isSome_iff_exists.mp h with ⟨i, hi⟩
  unfold get_col
  rw [show col_idx df c = some i from hi]
  simp

/-- Helper: lookup in the graph of a function over a list of keys. -/
theorem lookup_map_graph {β γ : Type} [BEq β] [LawfulBEq β] (f : β → γ) :
    ∀ (l : List β) (c : β), c ∈ l →
      (l.map (fun x => (x, f x))).lookup c = some (f c) := by
  intro l
  induction l with
  | nil => intro c hc; cases hc
  | cons x rest ih =>
    intro c hc
    simp only [List.map_cons, List.lookup]
    cases hcx : (c == x) with
    | true =>
      rw [(beq_iff_eq.mp hcx : c = x)]
    | false =>
      exact ih c (by
        rcases List.mem_cons.mp hc with h | h
        · rw [h] at hcx
          simp at hcx
        · exact h)

/-- Helper: the containment scan equals the specification-side recursion,
modulo the running maximum. -/
theorem tier_scan_spec {P : Type} (within : ℚ → ℚ → P → Bool) (lon lat : ℚ)
    (n : ℕ) : ∀ (l : List P) (j acc : ℕ),
    tier_scan within lon lat n l j acc =
      max acc (spec_tier_go (fun p => within lon lat p) l n j) := by
  intro l
  induction l with
  | nil => intro j acc; simp [tier_scan, spec_tier_go]
  | cons p rest ih =>
    intro j acc
    simp only [tier_scan, spec_tier_go]
    by_cases hw : within lon lat p = true
    · simp only [if_pos hw]
      rw [ih (j + 1) (max acc (n - j))]
      exact (Nat.max_assoc acc (n - j) _)
    · simp only [if_neg hw]
      exact ih (j + 1) acc

/-- Helper: the per-coordinate tier of the implementation is the
specification-side tier. -/
theorem tier_for_eq_spec {P : Type} (within : ℚ → ℚ → P → Bool)
    (processed : List P) (lon lat : ℚ) :
    tier_for within processed lon lat =
      spec_tier (fun p => within lon lat p) processed := by
  unfold tier_for spec_tier
  rw [tier_scan_spec]
  simp

/-- Helper: a containing group index bounds the spec-side tier from below. -/
theorem spec_tier_go_ge {P : Type} (contains : P → Bool) :
    ∀ (l : List P) (N j k : ℕ) (p : P), l.get? k = some p → contains p = true →
      N - (j + k) ≤ spec_tier_go contains l N j := by
  intro l
  induction l with
  | nil => intro N j k p h _; cases h
  | cons g rest ih =>
    intro N j k p h hc
    cases k with
    | zero =>
      simp only [List.get?] at h
      cases h
      simp only [spec_tier_go, hc, if_true, Nat.add_zero]
      exact Nat.le_max_left _ _
    | succ k2 =>
      simp only [List.get?] at h
      have hrec := ih N (j + 1) k2 p h hc
      have harith : N - (j + (k2 + 1)) = N - (j + 1 + k2) := by omega
      rw [harith]
      simp only [spec_tier_go]
      cases contains g
      · simpa using hrec
      · simp only [if_true]
        exact le_trans hrec (Nat.le_max_right _ _)

/-- Helper: spec-side lower bound at the top level. -/
theorem spec_tier_ge {P : Type} (contains : P → Bool) (groups : List P)
    (i : ℕ) (p : P) (h : groups.get? i = some p) (hc : contains p = true) :
    groups.length - i ≤ spec_tier contains groups := by
  unfold spec_tier
  simpa using spec_tier_go_ge contains groups groups.length 0 i p h hc

/-- Helper: polygon processing reads only the head of each group. -/
theorem process_polygons_heads {P : Type} (buffer_fn : P → ℚ → P) (buf : ℚ) :
    ∀ (l : List (PolyGroup P)),
      process_polygons buffer_fn buf (l.map head_group) =
        process_polygons buffer_fn buf l := by
  intro l
  induction l with
  | nil => rfl
  | cons g rest ih =>
    cases g with
    | single p =>
      simp only [List.map_cons, head_group, process_polygons, ih]
    | group ps =>
      cases ps with
      | nil => simp only [List.map_cons, head_group, process_polygons]
      | cons p ps2 =>
        simp only [List.map_cons, head_group, process_polygons, ih]

/-- Helper: processing a list of single-polygon groups buffers each polygon. -/
theorem process_polygons_singles {P : Type} (buffer_fn : P → ℚ → P) (buf : ℚ) :
    ∀ (ps : List P),
      process_polygons buffer_fn buf (ps.map PolyGroup.single) =
        .ok (ps.map fun p => if buf > 0 then buffer_fn p buf else p) := by
  intro ps
  induction ps with
  | nil => rfl
  | cons p rest ih =>
    simp only [List.map_cons, process_polygons, ih]

/-- Helper: setting the freshly appended position rewrites the appended
element. -/
theorem set_append_last {α : Type} : ∀ (l : List α) (a b : α),
    (l ++ [a]).set l.length b = l ++ [b] := by
  intro l
  induction l with
  | nil => intro a b; rfl
  | cons x rest ih =>
    intro a b
    simp only [List.cons_append, List.length_cons, List.set_cons_succ, ih]

/-- Helper: overwriting the same position twice keeps only the second write,
row-wise. -/
theorem map_set_set : ∀ (rows : List (List PdVal)) (v1 v2 : List PdVal) (i : ℕ),
    v1.length = rows.length → v2.length = rows.length →
    (((rows.zip v1).map (fun rv => rv.1.set i rv.2)).zip v2).map
        (fun rv => rv.1.set i rv.2) =
      (rows.zip v2).map (fun rv => rv.1.set i rv.2) := by
  intro rows
  induction rows with
  | nil =>
    intro v1 v2 i h1 h2
    cases v1 with
    | nil => rfl
    | cons a as => simp at h1
  | cons r rs ih =>
    intro v1 v2 i h1 h2
    cases v1 with
    | nil => simp at h1
    | cons a as =>
      cases v2 with
      | nil => rfl
      | cons b bs =>
        simp only [List.zip_cons_cons, List.map_cons, List.cons.injEq]
        exact ⟨List.set_set a b r i, ih as bs i (by simpa using h1) (by simpa using h2)⟩

/-- Helper: appending then overwriting the appended cell equals appending the
new cell, row-wise. -/
theorem map_append_set : ∀ (rows : List (List PdVal)) (v1 v2 : List PdVal) (n : ℕ),
    (∀ r ∈ rows, r.length = n) → v1.length = rows.length → v2.length = rows.length →
    (((rows.zip v1).map (fun rv => rv.1 ++ [rv.2])).zip v2).map
        (fun rv => rv.1.set n rv.2) =
      (rows.zip v2).map (fun rv => rv.1 ++ [rv.2]) := by
  intro rows
  induction rows with
  | nil =>
    intro v1 v2 n _ h1 h2
    cases v1 with
    | nil => rfl
    | cons a as => simp at h1
  | cons r rs ih =>
    intro v1 v2 n hmem h1 h2
    cases v1 with
    | nil => simp at h1
    | cons a as =>
      cases v2 with
      | nil => rfl
      | cons b bs =>
        simp only [List.zip_cons_cons, List.map_cons, List.cons.injEq]
        constructor
        · rw [show n = r.length from (hmem r (by simp)).symm]
          exact set_append_last r a b
        · exact ih as bs n (fun x hx => hmem x (by simp [hx]))
            (by simpa using h1) (by simpa using h2)

/-- Helper: writing the same column twice keeps only the second write. -/
theorem set_col_set_col (df : DFrame) (c : String) (v1 v2 : List PdVal)
    (hwf : df.wf) (h1 : v1.length = df.rows.length)
    (h2 : v2.length = df.rows.length) :
    set_col (set_col df c v1) c v2 = set_col df c v2 := by
  cases hidx : col_idx df c with
  | some i =>
    have hsc : set_col df c v1 =
        ⟨df.cols, (df.rows.zip v1).map fun rv => rv.1.set i rv.2⟩ := by
      unfold set_col
      rw [hidx]
    have hsc2 : set_col df c v2 =
        ⟨df.cols, (df.rows.zip v2).map fun rv => rv.1.set i rv.2⟩ := by
      unfold set_col
      rw [hidx]
    have hsc3 : set_col (⟨df.cols, (df.rows.zip v1).map fun rv => rv.1.set i rv.2⟩ : DFrame) c v2 =
        ⟨df.cols, (((df.rows.zip v1).map fun rv => rv.1.set i rv.2).zip v2).map
          fun rv => rv.1.set i rv.2⟩ := by
      unfold set_col
      simp only [col_idx]
      rw [show idx_of df.cols c = some i from hidx]
    rw [hsc, hsc2, hsc3, map_set_set df.rows v1 v2 i h1 h2]
  | none =>
    have hsc : set_col df c v1 =
        ⟨df.cols ++ [c], (df.rows.zip v1).map fun rv => rv.1 ++ [rv.2]⟩ := by
      unfold set_col
      rw [hidx]
    have hsc2 : set_col df c v2 =
        ⟨df.cols ++ [c], (df.rows.zip v2).map fun rv => rv.1 ++ [rv.2]⟩ := by
      unfold set_col
      rw [hidx]
    have hsc3 : set_col (⟨df.cols ++ [c], (df.rows.zip v1).map fun rv => rv.1 ++ [rv.2]⟩ : DFrame) c v2 =
        ⟨df.cols ++ [c], (((df.rows.zip v1).map fun rv => rv.1 ++ [rv.2]).zip v2).map
          fun rv => rv.1.set df.cols.length rv.2⟩ := by
      unfold set_col
      simp only [col_idx]
      rw [idx_of_append_self df.cols c hidx]
    rw [hsc, hsc2, hsc3, map_append_set df.rows v1 v2 df.cols.length hwf h1 h2]

/-- Helper, master evaluation of `assign_tier`: with lat/lon columns present
and fully numeric and with polygon processing succeeding, the result appends
the point geometry and the tier column, whose value for every row is
`tier_for` of the row's 8-decimal-rounded coordinate. -/
theorem assign_tier_eval {P : Type} (within : ℚ → ℚ → P → Bool)
    (buffer_fn : P → ℚ → P) (df : DFrame) (polygons : List (PolyGroup P))
    (buf : ℚ) (processed : List P)
    (hwf : df.wf)
    (hlat : (col_idx df "lat").isSome) (hlon : (col_idx df "lon").isSome)
    (hlatna : (get_col df "lat").any PdVal.isna = false)
    (hlonna : (get_col df "lon").any PdVal.isna = false)
    (hproc : process_polygons buffer_fn buf polygons = .ok processed) :
    assign_tier within buffer_fn df polygons buf =
      .ok (set_col
            (set_col df "geometry"
              (((get_col df "lat").zip (get_col df "lon")).map fun ll =>
                PdVal.ptv ll.2.toRat ll.1.toRat))
            "tier"
            (((get_col df "lat").zip (get_col df "lon")).map fun ll =>
              PdVal.num (tier_for within processed (round8 ll.2.toRat)
                (round8 ll.1.toRat)))) := by
  rcases Option.isSome_iff_exists.mp hlat with ⟨il, hil⟩
  rcases Option.isSome_iff_exists.mp hlon with ⟨io, hio⟩
  have hcond1 : ((col_idx df "lat").isNone || (col_idx df "lon").isNone) = false := by
    rw [hil, hio]
    rfl
  have hcond2 : ((get_col df "lat").any PdVal.isna
      || (get_col df "lon").any PdVal.isna) = false := by
    rw [hlatna, hlonna]
    rfl
  have hlatlen : (get_col df "lat").length = df.rows.length :=
    get_col_length df "lat" hlat
  have hlonlen : (get_col df "lon").length = df.rows.length :=
    get_col_length df "lon" hlon
  have hziplen : ((get_col df "lat").zip (get_col df "lon")).length
      = df.rows.length := by
    rw [List.length_zip, hlatlen, hlonlen, min_self]
  have hGlen : (((get_col df "lat").zip (get_col df "lon")).map fun ll =>
      PdVal.ptv ll.2.toRat ll.1.toRat).length = df.rows.length := by
    rw [List.length_map, hziplen]
  have hTlen : (((get_col df "lat").zip (get_col df "lon")).map fun ll =>
      PdVal.num (tier_for within processed (round8 ll.2.toRat)
        (round8 ll.1.toRat))).length = df.rows.length := by
    rw [List.length_map, hziplen]
  have hA := set_col_wf df "geometry" _ hwf hGlen
  have hArows := set_col_rows_length df "geometry"
    (((get_col df "lat").zip (get_col df "lon")).map fun ll =>
      PdVal.ptv ll.2.toRat ll.1.toRat) hGlen
  unfold assign_tier
  rw [hcond1]
  simp only [Bool.false_eq_true, if_false]
  rw [hcond2]
  simp only [Bool.false_eq_true, if_false]
  simp only [hproc]
  by_cases h0 : df.rows.length = 0
  · rw [if_pos (by rw [beq_iff_eq]; exact h0)]
    have hnil : df.rows = [] := List.length_eq_zero.mp h0
    have hAnil : (set_col df "geometry"
        (((get_col df "lat").zip (get_col df "lon")).map fun ll =>
          PdVal.ptv ll.2.toRat ll.1.toRat)).rows = [] := by
      unfold set_col
      cases col_idx df "geometry" <;> simp [hnil]
    rw [set_col_rows_nil _ hAnil "tier"]
  · rw [if_neg (by rw [beq_iff_eq]; exact h0)]
    have htiers :
        ((((get_col df "lat").zip (get_col df "lon")).map fun ll =>
            (round8 ll.1.toRat, round8 ll.2.toRat)).map fun c =>
          match ((((get_col df "lat").zip (get_col df "lon")).map fun ll =>
              (round8 ll.1.toRat, round8 ll.2.toRat)).dedup.map fun c2 =>
                (c2, tier_for within processed c2.2 c2.1)).lookup c with
          | some t => PdVal.num t
          | none => PdVal.nan) =
        (((get_col df "lat").zip (get_col df "lon")).map fun ll =>
          PdVal.num (tier_for within processed (round8 ll.2.toRat)
            (round8 ll.1.toRat))) := by
      rw [List.map_map]
      apply List.map_congr_left
      intro ll hll
      have hmem : (round8 ll.1.toRat, round8 ll.2.toRat) ∈
          (((get_col df "lat").zip (get_col df "lon")).map fun ll =>
            (round8 ll.1.toRat, round8 ll.2.toRat)) :=
        List.mem_map_of_mem _ hll
      have hmem2 := List.mem_dedup.mpr hmem
      simp only [Function.comp_apply]
      rw [lookup_map_graph (fun c2 => tier_for within processed c2.2 c2.1)
        _ _ hmem2]
    rw [htiers]
    rw [set_col_set_col _ "tier" _ _ hA (by rw [List.length_replicate]) (by rw [hTlen, hArows])]

/-- C3, counterexample: one isochrone group made of two polygons (the first
containing nothing, the second containing everything); the candidate at
(0, 0) lies in the second polygon of the group, yet `assign_tier` gives it
tier 0 — not at least the group's tier 1 — because only the group's first
polygon is ever tested (tier.py:59 takes `polygon_input[0]`). -/
theorem C3_counterexample :
    ∃ out,
      assign_tier (fun lon lat (p : ℚ × ℚ → Bool) => p (lon, lat)) (fun p _ => p)
          ⟨["lat", "lon"], [[PdVal.num 0, PdVal.num 0]]⟩
          [PolyGroup.group [fun _ => false, fun _ => true]] DEFAULT_BUFFER =
        .ok out ∧
      get_col out "tier" = [PdVal.num 0] ∧
      ((fun (_ : ℚ × ℚ) => true)
        (round8 (PdVal.num 0).toRat, round8 (PdVal.num 0).toRat)) = true := by
  have hwf : (⟨["lat", "lon"], [[PdVal.num 0, PdVal.num 0]]⟩ : DFrame).wf := by
    intro r hr
    simp only [List.mem_singleton] at hr
    subst hr
    rfl
  have hproc : process_polygons (fun (p : ℚ × ℚ → Bool) _ => p) DEFAULT_BUFFER
      [PolyGroup.group [fun _ => false, fun _ => true]] =
      .ok [fun _ => false] := by
    simp [process_polygons, ite_self]
  have heval := assign_tier_eval (fun lon lat (p : ℚ × ℚ → Bool) => p (lon, lat))
    (fun p _ => p) ⟨["lat", "lon"], [[PdVal.num 0, PdVal.num 0]]⟩
    [PolyGroup.group [fun _ => false, fun _ => true]] DEFAULT_BUFFER
    [fun _ => false] hwf (by decide) (by decide) (by decide) (by decide) hproc
  refine ⟨_, heval, ?_, rfl⟩
  rw [get_col_set_col _ "tier" _ (set_col_wf _ "geometry" _ hwf (by decide))
    (by rw [set_col_rows_length _ "geometry" _ (by decide)]; decide)]
  decide

/-- C3 (amended): the tier assignment only ever consults the *first* polygon
of each isochrone group — `assign_tier` is unchanged when every group is
replaced by its first polygon — and a candidate whose (rounded) point lies
(after buffering) in the first polygon of the group at index `i` of the `N`
processed groups receives at least tier `N - i`.  A point lying only in a
later polygon of a multi-polygon group receives nothing from that group (see
the counterexample). -/
theorem C3_multi_polygon {P : Type} :
    (∀ (within : ℚ → ℚ → P → Bool) (buffer_fn : P → ℚ → P) (df : DFrame)
        (polygons : List (PolyGroup P)) (buf : ℚ),
      assign_tier within buffer_fn df (polygons.map head_group) buf =
        assign_tier within buffer_fn df polygons buf) ∧
    (∀ (within : ℚ → ℚ → P → Bool) (processed : List P) (lon lat : ℚ)
        (i : ℕ) (p : P),
      processed.get? i = some p → within lon lat p = true →
      processed.length - i ≤ tier_for within processed lon lat) := by
  constructor
  · intro within buffer_fn df polygons buf
    unfold assign_tier
    rw [process_polygons_heads]
  · intro within processed lon lat i p h hc
    rw [tier_for_eq_spec]
    exact spec_tier_ge _ processed i p h hc

/-- Witness for C3: the heads-only equation at a concrete frame and group
list, and the lower bound for a concrete polygon containing the origin. -/
theorem C3_multi_polygon_witness :
    (assign_tier (fun lon lat (p : ℚ × ℚ → Bool) => p (lon, lat)) (fun p _ => p)
        ⟨["lat", "lon"], [[PdVal.num 0, PdVal.num 0]]⟩
        ([PolyGroup.group [fun _ => false, fun _ => true]].map head_group)
        DEFAULT_BUFFER =
      assign_tier (fun lon lat (p : ℚ × ℚ → Bool) => p (lon, lat)) (fun p _ => p)
        ⟨["lat", "lon"], [[PdVal.num 0, PdVal.num 0]]⟩
        [PolyGroup.group [fun _ => false, fun _ => true]] DEFAULT_BUFFER) ∧
    1 ≤ tier_for (fun lon lat (p : ℚ × ℚ → Bool) => p (lon, lat))
        [fun _ => true] 0 0 := by
  constructor
  · exact C3_multi_polygon.1 _ _ _ _ _
  · have h := C3_multi_polygon.2 (fun lon lat (p : ℚ × ℚ → Bool) => p (lon, lat))
      [fun _ => true] 0 0 0 (fun _ => true) rfl rfl
    simpa using h

/-- Helper: the default buffer distance is positive, so processing single
groups applies the buffer. -/
theorem process_singles_default {P : Type} (buffer_fn : P → ℚ → P) (ps : List P) :
    process_polygons buffer_fn DEFAULT_BUFFER (ps.map PolyGroup.single) =
      .ok (ps.map fun p => buffer_fn p DEFAULT_BUFFER) := by
  rw [process_polygons_singles]
  have hpos : DEFAULT_BUFFER > 0 := by unfold DEFAULT_BUFFER; norm_num
  congr 1
  apply List.map_congr_left
  intro p _
  rw [if_pos hpos]

/-- C4 (amended): with N single-polygon isochrone groups ordered innermost
first, `TierService.assign_tiers` succeeds and assigns every candidate the
tier `spec_tier` of its coordinate *rounded to 8 decimal places* — the
maximum of N - i over the group indices i whose buffered polygon contains the
rounded point, 0 when none does (the claim as stated, about the exact point,
fails when rounding crosses a polygon boundary — see the counterexample); and
when the isochrone list is null or empty, every candidate receives tier 0
without error. -/
theorem C4_tier_postcondition {P : Type} (within : ℚ → ℚ → P → Bool)
    (buffer_fn : P → ℚ → P) (df : DFrame) (polys : List P)
    (hwf : df.wf)
    (hlat : (col_idx df "lat").isSome) (hlon : (col_idx df "lon").isSome)
    (hlatna : (get_col df "lat").any PdVal.isna = false)
    (hlonna : (get_col df "lon").any PdVal.isna = false) :
    (polys ≠ [] →
      ∃ out, assign_tiers within buffer_fn df (some (polys.map PolyGroup.single)) =
          .ok out ∧
        get_col out "tier" =
          ((get_col df "lat").zip (get_col df "lon")).map fun ll =>
            PdVal.num (spec_tier
              (fun p => within (round8 ll.2.toRat) (round8 ll.1.toRat) p)
              (polys.map fun p => buffer_fn p DEFAULT_BUFFER))) ∧
    (∃ out0, assign_tiers within buffer_fn df none = .ok out0 ∧
      get_col out0 "tier" = List.replicate df.rows.length (PdVal.num 0)) ∧
    (∃ out1, assign_tiers within buffer_fn df (some []) = .ok out1 ∧
      get_col out1 "tier" = List.replicate df.rows.length (PdVal.num 0)) := by
  have hziplen : ((get_col df "lat").zip (get_col df "lon")).length
      = df.rows.length := by
    rw [List.length_zip, get_col_length df "lat" hlat,
      get_col_length df "lon" hlon, min_self]
  refine ⟨?_, ?_, ?_⟩
  · intro hne
    have hcond : (!(polys.map PolyGroup.single).isEmpty
        && (polys.map PolyGroup.single).all group_truthy) = true := by
      rcases polys with _ | ⟨p, ps⟩
      · exact absurd rfl hne
      · simp [group_truthy, List.all_eq_true]
    have heval := assign_tier_eval within buffer_fn df (polys.map PolyGroup.single)
      DEFAULT_BUFFER (polys.map fun p => buffer_fn p DEFAULT_BUFFER)
      hwf hlat hlon hlatna hlonna (process_singles_default buffer_fn polys)
    refine ⟨set_col
        (set_col df "geometry"
          (((get_col df "lat").zip (get_col df "lon")).map fun ll =>
            PdVal.ptv ll.2.toRat ll.1.toRat))
        "tier"
        (((get_col df "lat").zip (get_col df "lon")).map fun ll =>
          PdVal.num (tier_for within (polys.map fun p => buffer_fn p DEFAULT_BUFFER)
            (round8 ll.2.toRat) (round8 ll.1.toRat))), ?_, ?_⟩
    · simp only [assign_tiers, hcond, if_true]
      exact heval
    · rw [get_col_set_col _ "tier" _
        (set_col_wf df "geometry" _ hwf (by rw [List.length_map, hziplen]))
        (by rw [List.length_map, hziplen,
          set_col_rows_length df "geometry" _ (by rw [List.length_map, hziplen])])]
      apply List.map_congr_left
      intro ll _
      rw [tier_for_eq_spec]
  · refine ⟨_, rfl, ?_⟩
    exact get_col_set_col df "tier" _ hwf (by rw [List.length_replicate])
  · refine ⟨_, rfl, ?_⟩
    exact get_col_set_col df "tier" _ hwf (by rw [List.length_replicate])

/-- Witness for C4: one all-containing polygon group over a single candidate
at the origin gives tier 1; a null and an empty isochrone list give tier 0. -/
theorem C4_tier_postcondition_witness :
    (∃ out, assign_tiers (fun lon lat (p : ℚ × ℚ → Bool) => p (lon, lat))
        (fun p _ => p) ⟨["lat", "lon"], [[PdVal.num 0, PdVal.num 0]]⟩
        (some ([fun _ => true].map PolyGroup.single)) = .ok out ∧
      get_col out "tier" = [PdVal.num 1]) ∧
    (∃ out0, assign_tiers (fun lon lat (p : ℚ × ℚ → Bool) => p (lon, lat))
        (fun p _ => p) ⟨["lat", "lon"], [[PdVal.num 0, PdVal.num 0]]⟩ none =
        .ok out0 ∧
      get_col out0 "tier" = [PdVal.num 0]) := by
  have hwf : (⟨["lat", "lon"], [[PdVal.num 0, PdVal.num 0]]⟩ : DFrame).wf := by
    intro r hr
    simp only [List.mem_singleton] at hr
    subst hr
    rfl
  have h := C4_tier_postcondition (fun lon lat (p : ℚ × ℚ → Bool) => p (lon, lat))
    (fun p _ => p) ⟨["lat", "lon"], [[PdVal.num 0, PdVal.num 0]]⟩
    [fun _ => true] hwf (by decide) (by decide) (by decide) (by decide)
  constructor
  · rcases h.1 (by simp) with ⟨out, hout, hcol⟩
    refine ⟨out, hout, ?_⟩
    rw [hcol]
    simp [get_col, col_idx, idx_of, spec_tier, spec_tier_go]
  · rcases h.2.1 with ⟨out0, hout0, hcol0⟩
    exact ⟨out0, hout0, by rw [hcol0]; rfl⟩

/-- C4, counterexample: a candidate at latitude 4·10⁻⁹ (which rounds to 0 at
8 decimals) and a polygon containing exactly the origin: no polygon contains
the candidate's point, so the claim as stated demands tier 0, but the
containment test runs on the rounded coordinate and the candidate receives
tier 1. -/
theorem C4_counterexample :
    ∃ out, assign_tiers (fun lon lat (p : ℚ × ℚ → Bool) => p (lon, lat))
        (fun p _ => p)
        ⟨["lat", "lon"], [[PdVal.num (1 / 250000000), PdVal.num 0]]⟩
        (some [PolyGroup.single (fun c => decide (c = ((0 : ℚ), (0 : ℚ))))]) =
        .ok out ∧
      get_col out "tier" = [PdVal.num 1] ∧
      (fun c => decide (c = ((0 : ℚ), (0 : ℚ))))
        ((0 : ℚ), (1 / 250000000 : ℚ)) = false := by
  have hwf : (⟨["lat", "lon"],
      [[PdVal.num (1 / 250000000), PdVal.num 0]]⟩ : DFrame).wf := by
    intro r hr
    simp only [List.mem_singleton] at hr
    subst hr
    rfl
  have h := (C4_tier_postcondition (fun lon lat (p : ℚ × ℚ → Bool) => p (lon, lat))
    (fun p _ => p) ⟨["lat", "lon"], [[PdVal.num (1 / 250000000), PdVal.num 0]]⟩
    [fun c => decide (c = ((0 : ℚ), (0 : ℚ)))] hwf
    (by decide) (by decide) (by decide) (by decide)).1 (by simp)
  rcases h with ⟨out, hout, hcol⟩
  refine ⟨out, ?_, ?_, ?_⟩
  · simpa using hout
  · rw [hcol]
    have hr8 : round8 ((250000000 : ℚ)⁻¹) = 0 := by
      unfold round8
      norm_num [round_eq]
    have hr0 : round8 (0 : ℚ) = 0 := by
      unfold round8
      norm_num
    simp [get_col, col_idx, idx_of, PdVal.toRat, hr8, hr0, spec_tier, spec_tier_go]
  · norm_num

/-- Helper: a label absent from a list stays absent when a different label is
appended. -/
theorem idx_of_append_none : ∀ (l : List String) (c c2 : String),
    idx_of l c = none → c ≠ c2 → idx_of (l ++ [c2]) c = none := by
  intro l
  induction l with
  | nil =>
    intro c c2 _ hne
    simp only [List.nil_append, idx_of]
    rw [if_neg (by simpa using fun h => hne h.symm)]
    rfl
  | cons x rest ih =>
    intro c c2 h hne
    simp only [idx_of, List.cons_append, List.append_eq] at h ⊢
    by_cases hx : (x == c) = true
    · rw [if_pos hx] at h
      cases h
    · rw [if_neg hx] at h ⊢
      have hrest : idx_of rest c = none := by
        cases hr : idx_of rest c with
        | none => rfl
        | some j => rw [hr] at h; cases h
      rw [ih c c2 hrest hne]
      rfl

/-- Helper: appending two cells one after the other appends a two-cell
suffix, row-wise. -/
theorem map_append_append : ∀ (rows : List (List PdVal)) (g t : List PdVal),
    ((((rows.zip g).map fun rv => rv.1 ++ [rv.2]).zip t).map
        fun rv => rv.1 ++ [rv.2]) =
      ((rows.zip (g.zip t)).map fun x => x.1 ++ [x.2.1, x.2.2]) := by
  intro rows
  induction rows with
  | nil => intro g t; rfl
  | cons r rs ih =>
    intro g t
    cases g with
    | nil => rfl
    | cons gv gs =>
      cases t with
      | nil => rfl
      | cons tv ts =>
        simp only [List.zip_cons_cons, List.map_cons, List.cons.injEq]
        exact ⟨by simp, ih gs ts⟩

/-- C10 (amended): for every well-formed input frame with numeric lat/lon and
*no pre-existing `tier` or `geometry` column*, and for polygon input that
processes successfully, `assign_tier` does not touch its input (the source
copies it first, tier.py:33) and returns a frame with exactly the input's
columns in order followed by `geometry` and `tier`, exactly the input's rows
in order each extended by the two new cells, and every original column
reading back unchanged.  (A pre-existing `tier` column is silently
overwritten — see the counterexample.) -/
theorem C10_frame_preserving {P : Type} (within : ℚ → ℚ → P → Bool)
    (buffer_fn : P → ℚ → P) (df : DFrame) (polygons : List (PolyGroup P))
    (buf : ℚ) (processed : List P)
    (hwf : df.wf)
    (hlat : (col_idx df "lat").isSome) (hlon : (col_idx df "lon").isSome)
    (hlatna : (get_col df "lat").any PdVal.isna = false)
    (hlonna : (get_col df "lon").any PdVal.isna = false)
    (hproc : process_polygons buffer_fn buf polygons = .ok processed)
    (hgeom : col_idx df "geometry" = none)
    (htier : col_idx df "tier" = none) :
    ∃ out, assign_tier within buffer_fn df polygons buf = .ok out ∧
      out.cols = df.cols ++ ["geometry", "tier"] ∧
      (∃ (gvals tvals : List PdVal), gvals.length = df.rows.length ∧
        tvals.length = df.rows.length ∧
        out.rows = (df.rows.zip (gvals.zip tvals)).map fun x =>
          x.1 ++ [x.2.1, x.2.2]) ∧
      (∀ c, (col_idx df c).isSome → get_col out c = get_col df c) := by
  have hziplen : ((get_col df "lat").zip (get_col df "lon")).length
      = df.rows.length := by
    rw [List.length_zip, get_col_length df "lat" hlat,
      get_col_length df "lon" hlon, min_self]
  set G := ((get_col df "lat").zip (get_col df "lon")).map fun ll =>
    PdVal.ptv ll.2.toRat ll.1.toRat with hGdef
  set T := ((get_col df "lat").zip (get_col df "lon")).map fun ll =>
    PdVal.num (tier_for within processed (round8 ll.2.toRat)
      (round8 ll.1.toRat)) with hTdef
  have hGlen : G.length = df.rows.length := by
    rw [hGdef, List.length_map, hziplen]
  have hTlen : T.length = df.rows.length := by
    rw [hTdef, List.length_map, hziplen]
  have heval := assign_tier_eval within buffer_fn df polygons buf processed
    hwf hlat hlon hlatna hlonna hproc
  have hA : set_col df "geometry" G =
      ⟨df.cols ++ ["geometry"], (df.rows.zip G).map fun rv => rv.1 ++ [rv.2]⟩ := by
    unfold set_col
    rw [hgeom]
  have htier2 : col_idx (set_col df "geometry" G) "tier" = none := by
    rw [hA]
    unfold col_idx
    exact idx_of_append_none df.cols "tier" "geometry" htier (by decide)
  have hout : set_col (set_col df "geometry" G) "tier" T =
      ⟨(df.cols ++ ["geometry"]) ++ ["tier"],
        (((df.rows.zip G).map fun rv => rv.1 ++ [rv.2]).zip T).map
          fun rv => rv.1 ++ [rv.2]⟩ := by
    conv_lhs => rw [show set_col (set_col df "geometry" G) "tier" T =
      set_col (⟨df.cols ++ ["geometry"],
        (df.rows.zip G).map fun rv => rv.1 ++ [rv.2]⟩ : DFrame) "tier" T from by rw [hA]]
    unfold set_col
    rw [show col_idx (⟨df.cols ++ ["geometry"],
        (df.rows.zip G).map fun rv => rv.1 ++ [rv.2]⟩ : DFrame) "tier" = none from by
      rw [← hA]; exact htier2]
  refine ⟨_, heval, ?_, ?_, ?_⟩
  · rw [hout]
    simp
  · refine ⟨G, T, hGlen, hTlen, ?_⟩
    rw [hout]
    exact map_append_append df.rows G T
  · intro c hc
    have hcg : c ≠ "geometry" := by
      intro hEq
      rw [hEq] at hc
      rw [hgeom] at hc
      cases hc
    have hct : c ≠ "tier" := by
      intro hEq
      rw [hEq] at hc
      rw [htier] at hc
      cases hc
    have hstep1 : get_col (set_col df "geometry" G) c = get_col df c :=
      get_col_set_col_other df "geometry" c G hwf hGlen hc hcg
    have hcA : (col_idx (set_col df "geometry" G) c).isSome := by
      rcases Option.isSome_iff_exists.mp hc with ⟨i, hi⟩
      rw [hA]
      unfold col_idx
      rw [idx_of_append_left df.cols ["geometry"] c i hi]
      rfl
    have hstep2 : get_col (set_col (set_col df "geometry" G) "tier" T) c =
        get_col (set_col df "geometry" G) c :=
      get_col_set_col_other (set_col df "geometry" G) "tier" c T
        (set_col_wf df "geometry" G hwf hGlen)
        (by rw [hTlen, set_col_rows_length df "geometry" G hGlen]) hcA hct
    rw [hstep2, hstep1]

/-- Witness for C10: a two-column frame with one candidate row gains exactly
the geometry and tier columns; its lat column reads back unchanged. -/
theorem C10_frame_preserving_witness :
    ∃ out, assign_tier (fun lon lat (p : ℚ × ℚ → Bool) => p (lon, lat))
        (fun p _ => p) ⟨["lat", "lon"], [[PdVal.num 0, PdVal.num 0]]⟩ []
        DEFAULT_BUFFER = .ok out ∧
      out.cols = ["lat", "lon"] ++ ["geometry", "tier"] ∧
      (∃ (gvals tvals : List PdVal), gvals.length = 1 ∧ tvals.length = 1 ∧
        out.rows = ([[PdVal.num 0, PdVal.num 0]].zip (gvals.zip tvals)).map
          fun x => x.1 ++ [x.2.1, x.2.2]) ∧
      (∀ c, (col_idx (⟨["lat", "lon"], [[PdVal.num 0, PdVal.num 0]]⟩ : DFrame) c).isSome →
        get_col out c =
          get_col (⟨["lat", "lon"], [[PdVal.num 0, PdVal.num 0]]⟩ : DFrame) c) := by
  have hwf : (⟨["lat", "lon"], [[PdVal.num 0, PdVal.num 0]]⟩ : DFrame).wf := by
    intro r hr
    simp only [List.mem_singleton] at hr
    subst hr
    rfl
  exact C10_frame_preserving (fun lon lat (p : ℚ × ℚ → Bool) => p (lon, lat))
    (fun p _ => p) ⟨["lat", "lon"], [[PdVal.num 0, PdVal.num 0]]⟩ [] DEFAULT_BUFFER
    [] hwf (by decide) (by decide) (by decide) (by decide) rfl (by decide) (by decide)

/-- C10, counterexample: an input frame that already has a `tier` column
(value 42) gets that column silently overwritten (to 0 with no polygons), so
the claim as stated — every original column's values unchanged — is false. -/
theorem C10_counterexample :
    ∃ out, assign_tier (fun lon lat (p : ℚ × ℚ → Bool) => p (lon, lat))
        (fun p _ => p)
        ⟨["lat", "lon", "tier"], [[PdVal.num 1, PdVal.num 2, PdVal.num 42]]⟩ []
        DEFAULT_BUFFER = .ok out ∧
      get_col (⟨["lat", "lon", "tier"],
        [[PdVal.num 1, PdVal.num 2, PdVal.num 42]]⟩ : DFrame) "tier" =
          [PdVal.num 42] ∧
      get_col out "tier" = [PdVal.num 0] := by
  have hwf : (⟨["lat", "lon", "tier"],
      [[PdVal.num 1, PdVal.num 2, PdVal.num 42]]⟩ : DFrame).wf := by
    intro r hr
    simp only [List.mem_singleton] at hr
    subst hr
    rfl
  have heval := assign_tier_eval (fun lon lat (p : ℚ × ℚ → Bool) => p (lon, lat))
    (fun p _ => p)
    ⟨["lat", "lon", "tier"], [[PdVal.num 1, PdVal.num 2, PdVal.num 42]]⟩ []
    DEFAULT_BUFFER [] hwf (by decide) (by decide) (by decide) (by decide) rfl
  refine ⟨_, heval, by decide, ?_⟩
  rw [get_col_set_col _ "tier" _ (set_col_wf _ "geometry" _ hwf (by decide))
    (by rw [set_col_rows_length _ "geometry" _ (by decide)]; decide)]
  decide

end Innsight.Tier

namespace Innsight.Pipeline

/-- C9: the empty query short-circuits `Recommender.run` — for every oracle
behavior, state, and remaining input fields, the result is the zero-count
empty result (all tier counts 0, empty top list, empty isochrone geometry,
empty intervals), no error is raised, the pipeline state is untouched, and no
transport (geocoding, POI search, isochrones) is invoked. -/
theorem C9_empty_query {P : Type} (exterior : P → List (ℚ × ℚ))
    (parse_query : String → Except PyExc ParsedQuery) (tp : Transports P)
    (cfg : CacheCfg) (st : PState) (now : ℚ) (filters : Option (List String))
    (top_n : Option ℕ) (weights : Option Weights) :
    run exterior parse_query tp cfg st now ⟨"", filters, top_n, weights⟩ =
      (.ok ⟨⟨0, 0, 0, 0⟩, [],
        ⟨"未知景點", none, none, none, none, none, none⟩, [],
        ⟨[], "minutes", "driving-car"⟩⟩, st, []) :=
  rfl

/-- Helper: the search phase only ever fails with `ServiceUnavailableError`. -/
theorem run_search_error {P : Type} (exterior : P → List (ℚ × ℚ))
    (tp : Transports P) (st : PState) (now : ℚ) (query : String)
    (ph : ParsePhase) (merged_filters : List String) (top_n : ℕ)
    (weights : Option Weights) (cache_key : Option CKey) (e : PyExc)
    (h : (run_search exterior tp st now query ph merged_filters top_n weights
      cache_key).1 = .error e) :
    ∃ msg, e = .serviceUnavailable msg := by
  unfold run_search at h
  split at h
  next e0 calls1 heq =>
    split at h
    · simp only [Prod.fst] at h
      cases h
      exact ⟨_, rfl⟩
    · simp only [Prod.fst] at h
      cases h
  next gdf calls1 heq =>
    simp only [Prod.fst] at h
    cases h

/-- C2 (amended): `Recommender.run` never surfaces a `ParseError` (nor any
error other than `ServiceUnavailableError`): the except branch at
pipeline.py:125 catches every exception of the parse-and-geocode block —
`ParseError` included — and degrades to default values instead, so for every
oracle behavior and input, a failing run fails with
`ServiceUnavailableError`. -/
theorem C2_parse_error_not_surfaced {P : Type} (exterior : P → List (ℚ × ℚ))
    (parse_query : String → Except PyExc ParsedQuery) (tp : Transports P)
    (cfg : CacheCfg) (st : PState) (now : ℚ) (query_data : RunInput)
    (e : PyExc)
    (h : (run exterior parse_query tp cfg st now query_data).1 = .error e) :
    (∃ msg, e = .serviceUnavailable msg) ∧ e.is_parse_error = false := by
  have hsu : ∃ msg, e = .serviceUnavailable msg := by
    simp only [run] at h
    split at h
    · simp only [Prod.fst] at h
      cases h
    · split at h
      · split at h
        next cached st2 heq =>
          simp only [Prod.fst] at h
          cases h
        next st2 heq =>
          exact run_search_error _ _ _ _ _ _ _ _ _ _ e h
      · exact run_search_error _ _ _ _ _ _ _ _ _ _ e h
  refine ⟨hsu, ?_⟩
  rcases hsu with ⟨msg, rfl⟩
  rfl

/-- Witness for C2: a concrete run (parse fails, the query-based search then
fails with a network error) that raises `ServiceUnavailableError`. -/
theorem C2_parse_error_not_surfaced_witness :
    (∃ msg, (PyExc.serviceUnavailable "External service unavailable: down") =
      PyExc.serviceUnavailable msg) ∧
    (PyExc.serviceUnavailable "External service unavailable: down").is_parse_error
      = false := by
  exact C2_parse_error_not_surfaced (P := Unit) (fun _ => [])
    (fun _ => .error (.parseError "無法判斷地名或主行程"))
    ⟨fun _ => .ok none, fun _ _ _ _ _ => .error (.networkError "down"),
     fun _ _ _ _ => .error (.networkError "down"), fun _ _ => none⟩
    ⟨1800, 20, 60⟩ ⟨[], 0, 0, 0, 0⟩ 100 ⟨"請推薦飯店", none, none, none⟩
    (.serviceUnavailable "External service unavailable: down") rfl

/-- C2, counterexample: a nonempty query whose parse raises `ParseError` (no
usable POI or place) does *not* make `run` fail with that `ParseError`: with
the POI-search transport succeeding, `run` returns a degraded ok-result
(unknown main POI, empty top), refuting the claim as stated. -/
theorem C2_counterexample :
    ((fun _ => .error (.parseError "無法判斷地名或主行程") :
        String → Except PyExc ParsedQuery) "請推薦飯店" =
      .error (.parseError "無法判斷地名或主行程")) ∧
    (run (P := Unit) (fun _ => [])
        (fun _ => .error (.parseError "無法判斷地名或主行程"))
        ⟨fun _ => .ok none, fun _ _ _ _ _ => .ok [], fun _ _ _ _ => .ok [],
         fun _ _ => none⟩
        ⟨1800, 20, 60⟩ ⟨[], 0, 0, 0, 0⟩ 100
        ⟨"請推薦飯店", none, none, none⟩).1 =
      .ok (empty_result (build_main_poi_data "未知景點" none none)) := by
  exact ⟨rfl, rfl⟩

end Innsight.Pipeline

namespace Innsight.CacheHeap

/-- **C1** (code bug). The put side deep-copies, but the hit side of
`_get_from_cache` builds `result_copy` as a *shallow* copy — despite its own
comment "(deep copy to avoid mutation)" at pipeline.py:511 — so the dict rows
inside the returned `top` list are the live cached objects.  Concretely: after
`put(K, R)` with `R.top = [{name: "A"}]`, `get(K, 5)` returns a value equal to
the stored `R` (the round-trip half of the claim holds), but the returned
object reaches the cached name cell (address 9) through `top[0]["name"]`, and
after the caller writes `"HACKED"` there, a second `get(K, 5)` returns the
mutated value, not the value that was put. -/
theorem C1_cache_mutation_leak :
    save_to_cache 20 example_heap [] "K" 7 0 = some (example_heap1, [("K", 15, 0)]) ∧
    get_from_cache example_heap1 [("K", 15, 0)] "K" 5 10 1800 =
      (some (example_heap2, 17), [("K", 15, 0)]) ∧
    readVal 20 example_heap2 17 = readVal 20 example_heap 7 ∧
    heapGet example_heap2 17 =
      some (.dict [("stats", 8), ("top", 16), ("main_poi", 12),
        ("isochrone_geometry", 13), ("intervals", 14)]) ∧
    heapGet example_heap2 16 = some (.list [10]) ∧
    heapGet example_heap2 10 = some (.dict [("name", 9)]) ∧
    (get_from_cache (heapWrite example_heap2 9 (.leaf (.str "HACKED")))
        [("K", 15, 0)] "K" 5 20 1800).1 =
      some (heapWrite example_heap2 9 (.leaf (.str "HACKED")) ++
        [.list [10], .dict [("stats", 8), ("top", 18), ("main_poi", 12),
          ("isochrone_geometry", 13), ("intervals", 14)]], 19) ∧
    first_top_name (readVal 20
        (heapWrite example_heap2 9 (.leaf (.str "HACKED")) ++
          [.list [10], .dict [("stats", 8), ("top", 18), ("main_poi", 12),
            ("isochrone_geometry", 13), ("intervals", 14)]]) 19) =
      some "HACKED" ∧
    first_top_name (readVal 20 example_heap 7) = some "A" ∧
    readVal 20
        (heapWrite example_heap2 9 (.leaf (.str "HACKED")) ++
          [.list [10], .dict [("stats", 8), ("top", 18), ("main_poi", 12),
            ("isochrone_geometry", 13), ("intervals", 14)]]) 19 ≠
      readVal 20 example_heap 7 := by
  have hlk : List.lookup "K" [("K", (15 : ℕ), (0 : ℚ))] = some (15, 0) := rfl
  have hget1 : get_from_cache example_heap1 [("K", 15, 0)] "K" 5 10 1800 =
      (some (example_heap2, 17), [("K", 15, 0)]) := by
    simp only [get_from_cache, hlk]
    split
    · next h => exact absurd h (by norm_num)
    · rfl
  have hget2 : (get_from_cache (heapWrite example_heap2 9 (.leaf (.str "HACKED")))
      [("K", 15, 0)] "K" 5 20 1800).1 =
      some (heapWrite example_heap2 9 (.leaf (.str "HACKED")) ++
        [.list [10], .dict [("stats", 8), ("top", 18), ("main_poi", 12),
          ("isochrone_geometry", 13), ("intervals", 14)]], 19) := by
    simp only [get_from_cache, hlk]
    split
    · next h => exact absurd h (by norm_num)
    · rfl
  refine ⟨rfl, hget1, rfl, rfl, rfl, rfl, hget2, rfl, rfl, fun h => ?_⟩
  exact absurd (congrArg first_top_name h) (by decide)

end Innsight.CacheHeap
